import Mathlib

/-!
Verification of the HLS M3U8 playlist parser specification of this repository.

The parser module itself (`streamlink/stream/hls/m3u8.py`) is not part of the
source tree available here; only its test suite
(`tests/stream/hls/test_m3u8.py`) and `streamlink/session/http_useragents.py`
are.  The definitions below therefore carry doc comments starting with
`Modelled from the spec:` and embed the behaviour described by the
specification, constrained at concrete points by the repository's own tests.

Dates and timedeltas are embedded as rational numbers of seconds (the Python
implementation uses `datetime`/`timedelta` values with microsecond precision;
all quantities appearing in the spec and tests are exactly representable).
Byte strings are lists of naturals below 256.
-/

/-! ### Character helpers -/

/-- Decimal digit `[0-9]`. -/
def isDig (c : Char) : Bool := 48 ≤ c.toNat && c.toNat ≤ 57

/-- Hexadecimal digit `[0-9a-fA-F]`. -/
def isHexChar (c : Char) : Bool :=
  isDig c || (97 ≤ c.toNat && c.toNat ≤ 102) || (65 ≤ c.toNat && c.toNat ≤ 70)

/-- Numeric value of a hexadecimal digit. -/
def hexDigitVal (c : Char) : Nat :=
  if isDig c then c.toNat - 48
  else if 97 ≤ c.toNat && c.toNat ≤ 102 then c.toNat - 87
  else c.toNat - 55

/-! ### `parse_hex`

Modelled from the spec: a hexadecimal-sequence attribute value "must match
`0[xX][0-9a-fA-F]+`; decoded big-endian, left-padded to even nibble count.
Invalid → `null` + warn"; a `null` input stays `null` without a warning. -/

/-- Whether a character list matches `0[xX][0-9a-fA-F]+`. -/
def hexOk (cs : List Char) : Bool :=
  match cs with
  | c0 :: x :: rest =>
    c0 == '0' && (x == 'x' || x == 'X') && !rest.isEmpty && rest.all isHexChar
  | _ => false

/-- Pair up a list of nibble values into bytes, big-endian. -/
def nibblesToBytes : List Nat → List Nat
  | [] => []
  | [a] => [a]
  | a :: b :: rest => (16 * a + b) :: nibblesToBytes rest

/-- Modelled from the spec: `parse_hex` decodes a hexadecimal-sequence
attribute value, returning the decoded bytes together with the emitted
warnings. -/
def parse_hex : Option String → Option (List Nat) × List String
  | none => (none, [])
  | some s =>
    if hexOk s.data then
      let ds := (s.data.drop 2).map hexDigitVal
      let padded := if ds.length % 2 = 1 then 0 :: ds else ds
      (some (nibblesToBytes padded), [])
    else (none, ["Discarded invalid hexadecimal-sequence attribute value"])

/-- Big-endian numeric value of a byte list. -/
def bytesBE (bs : List Nat) : Nat := bs.foldl (fun a b => 256 * a + b) 0

/-- Big-endian numeric value of a nibble list. -/
def nibblesBE (ds : List Nat) : Nat := ds.foldl (fun a d => 16 * a + d) 0

theorem hexDigitVal_lt_16 {c : Char} (h : isHexChar c = true) : hexDigitVal c < 16 := by
  unfold isHexChar isDig at h
  unfold hexDigitVal isDig
  simp only [Bool.or_eq_true, Bool.and_eq_true, decide_eq_true_eq] at h
  rcases h with (h | h) | h
  · rw [if_pos (by simp only [Bool.and_eq_true, decide_eq_true_eq]; omega)]; omega
  · rw [if_neg (by simp only [Bool.and_eq_true, decide_eq_true_eq]; omega),
        if_pos (by simp only [Bool.and_eq_true, decide_eq_true_eq]; omega)]; omega
  · rw [if_neg (by simp only [Bool.and_eq_true, decide_eq_true_eq]; omega),
        if_neg (by simp only [Bool.and_eq_true, decide_eq_true_eq]; omega)]; omega

theorem nibblesToBytes_spec :
    ∀ fuel ds, ds.length ≤ fuel → ds.length % 2 = 0 → (∀ d ∈ ds, d < 16) →
      (nibblesToBytes ds).length = ds.length / 2 ∧
      (∀ b ∈ nibblesToBytes ds, b < 256) ∧
      ∀ a, (nibblesToBytes ds).foldl (fun a b => 256 * a + b) a
            = ds.foldl (fun a d => 16 * a + d) a := by
  intro fuel
  induction fuel with
  | zero =>
    intro ds hlen _ _
    have : ds = [] := List.eq_nil_of_length_eq_zero (Nat.le_zero.mp hlen)
    subst this
    exact ⟨rfl, by simp [nibblesToBytes], fun a => rfl⟩
  | succ n ih =>
    intro ds hlen heven hlt
    match ds with
    | [] => exact ⟨rfl, by simp [nibblesToBytes], fun a => rfl⟩
    | [a] => simp at heven
    | a :: b :: rest =>
      have hrest : rest.length ≤ n := by
        simp only [List.length_cons] at hlen; omega
      have hreven : rest.length % 2 = 0 := by
        simp only [List.length_cons] at heven; omega
      have hrlt : ∀ d ∈ rest, d < 16 := fun d hd => hlt d (by simp [hd])
      obtain ⟨h1, h2, h3⟩ := ih rest hrest hreven hrlt
      refine ⟨?_, ?_, ?_⟩
      · simp only [nibblesToBytes, List.length_cons, h1]; omega
      · intro x hx
        simp only [nibblesToBytes, List.mem_cons] at hx
        rcases hx with rfl | hx
        · have ha := hlt a (by simp)
          have hb := hlt b (by simp)
          omega
        · exact h2 x hx
      · intro acc
        simp only [nibblesToBytes, List.foldl_cons, h3]
        congr 1
        ring

theorem hexOk_all {cs : List Char} (h : hexOk cs = true) :
    ∀ c ∈ cs.drop 2, isHexChar c = true := by
  match cs with
  | [] => simp [hexOk] at h
  | [c] => simp [hexOk] at h
  | c0 :: x :: rest =>
    simp only [hexOk, Bool.and_eq_true, List.all_eq_true] at h
    simpa using h.2

/-- C7: `parse_hex` returns null for null input without warning; a non-null
input not matching `0[xX][0-9a-fA-F]+` yields null plus exactly the warning
`"Discarded invalid hexadecimal-sequence attribute value"`; a matching input
decodes big-endian into `(digits+1)/2` bytes (each below 256) whose big-endian
value equals that of the digit string (left zero-padding preserving it), and
in particular `"0xdeadbee"` decodes to the four bytes `0d ea db ee`. -/
theorem c7_parse_hex :
    (parse_hex none = (none, [])) ∧
    (∀ s : String, hexOk s.data = false →
      parse_hex (some s) = (none, ["Discarded invalid hexadecimal-sequence attribute value"])) ∧
    (∀ s : String, hexOk s.data = true →
      ∃ bs, parse_hex (some s) = (some bs, []) ∧
        bs.length = (s.data.length - 2 + 1) / 2 ∧
        (∀ b ∈ bs, b < 256) ∧
        bytesBE bs = nibblesBE ((s.data.drop 2).map hexDigitVal)) ∧
    (parse_hex (some "0xdeadbee") = (some [0x0d, 0xea, 0xdb, 0xee], [])) := by
  refine ⟨rfl, ?_, ?_, by decide⟩
  · intro s h
    simp only [parse_hex, h, Bool.false_eq_true, if_false]
  · intro s h
    have hall : ∀ d ∈ (s.data.drop 2).map hexDigitVal, d < 16 := by
      intro d hd
      simp only [List.mem_map] at hd
      obtain ⟨c, hc, rfl⟩ := hd
      exact hexDigitVal_lt_16 (hexOk_all h c hc)
    set ds := (s.data.drop 2).map hexDigitVal with hds
    set padded := (if ds.length % 2 = 1 then 0 :: ds else ds) with hpadded
    have hplen : padded.length % 2 = 0 := by
      rw [hpadded]
      split
      next h1 => simp only [List.length_cons]; omega
      next h1 => omega
    have hpall : ∀ d ∈ padded, d < 16 := by
      rw [hpadded]
      split
      · intro d hd
        simp only [List.mem_cons] at hd
        rcases hd with rfl | hd
        · omega
        · exact hall d hd
      · exact hall
    obtain ⟨h1, h2, h3⟩ := nibblesToBytes_spec padded.length padded le_rfl hplen hpall
    refine ⟨nibblesToBytes padded, ?_, ?_, h2, ?_⟩
    · simp only [parse_hex, h, if_true]
    · rw [h1, hpadded]
      have hdl : ds.length = s.data.length - 2 := by
        rw [hds]; simp
      split
      next h4 => simp only [List.length_cons]; omega
      next h4 => omega
    · unfold bytesBE nibblesBE
      rw [h3 0, hpadded]
      split
      · simp
      · rfl

/-! ### Whitespace, prefix and run-splitting helpers -/

/-- Whitespace stripped from line ends and around tag attribute strings. -/
def isWS (c : Char) : Bool := c == ' ' || c == '\t' || c == '\r' || c == '\n'

/-- Strip leading and trailing whitespace from a character list. -/
def stripChars (cs : List Char) : List Char :=
  ((cs.dropWhile isWS).reverse.dropWhile isWS).reverse

/-- `hasPrefixC p cs` holds when `p` is an initial run of `cs`. -/
def hasPrefixC : List Char → List Char → Bool
  | [], _ => true
  | _ :: _, [] => false
  | p :: ps, c :: cs => p == c && hasPrefixC ps cs

theorem splitRun {α : Type} {p : α → Bool} (xs rest : List α)
    (h1 : ∀ c ∈ xs, p c = true)
    (h2 : ∀ y, rest.head? = some y → p y = false) :
    (xs ++ rest).takeWhile p = xs ∧ (xs ++ rest).dropWhile p = rest := by
  induction xs with
  | nil =>
    simp only [List.nil_append]
    cases rest with
    | nil => simp
    | cons y ys =>
      have hy := h2 y rfl
      simp [List.takeWhile_cons, List.dropWhile_cons, hy]
  | cons a as ih =>
    have ha := h1 a (by simp)
    have ihr := ih (fun c hc => h1 c (by simp [hc]))
    simp [List.takeWhile_cons, List.dropWhile_cons, ha, ihr.1, ihr.2]

/-! ### `split_tag`

Modelled from the spec: the per-line classification calls `split_tag` on a
line to obtain `(name, attrs)`; the attribute portion after the colon is
stripped of surrounding whitespace, a missing colon yields an empty attribute
string, and a non-tag line yields `(null, null)` (§4.4, §6). -/

/-- `split_tag` on character lists: splits `#NAME[:ATTRS]`. -/
def splitTagC (cs : List Char) : Option (List Char × List Char) :=
  match cs with
  | [] => none
  | c :: rest =>
    if c = '#' then
      some (rest.takeWhile (fun d => !(d == ':')),
        match rest.dropWhile (fun d => !(d == ':')) with
        | _ :: attrs => stripChars attrs
        | [] => [])
    else none

/-- Modelled from the spec: `split_tag` as exposed on the parser type. -/
def split_tag (line : String) : Option String × Option String :=
  match splitTagC line.data with
  | some (n, a) => (some n.asString, some a.asString)
  | none => (none, none)

/-- C8: `split_tag` returns `(null, null)` on the empty string and on any
line not starting with `'#'`; on a tag line without a colon it returns the
tag name with an empty attribute string; and the portion after the first
colon is returned with surrounding whitespace stripped. -/
theorem c8_split_tag :
    (split_tag "" = (none, none)) ∧
    (∀ line : String, line.data.head? ≠ some '#' → split_tag line = (none, none)) ∧
    (∀ (line : String) (rest : List Char), line.data = '#' :: rest →
      (∀ c ∈ rest, c ≠ ':') →
      split_tag line = (some rest.asString, some "")) ∧
    (∀ (line : String) (pre post : List Char),
      line.data = '#' :: (pre ++ ':' :: post) →
      (∀ c ∈ pre, c ≠ ':') →
      split_tag line = (some pre.asString, some (stripChars post).asString)) := by
  refine ⟨rfl, ?_, ?_, ?_⟩
  · intro line h
    simp only [split_tag]
    cases hd : line.data with
    | nil => rfl
    | cons c rest =>
      rw [hd] at h
      simp only [List.head?_cons, ne_eq, Option.some.injEq] at h
      simp only [splitTagC]
      rw [if_neg h]
  · intro line rest hd hcol
    have hsplit := splitRun (p := fun d => !(d == ':')) rest []
      (fun c hc => by simp [hcol c hc]) (fun y hy => by simp at hy)
    simp only [split_tag, hd, splitTagC, if_pos rfl]
    rw [List.append_nil] at hsplit
    rw [hsplit.1, hsplit.2]
    simp
    rfl
  · intro line pre post hd hcol
    have hsplit := splitRun (p := fun d => !(d == ':')) pre (':' :: post)
      (fun c hc => by simp [hcol c hc]) (fun y hy => by simp at hy; subst hy; decide)
    simp only [split_tag, hd, splitTagC, if_pos rfl]
    rw [hsplit.1, hsplit.2]
    simp

/-- Concrete witness for C8, matching a row of the repository's
`test_split_tag`. -/
theorem c8_split_tag_witness :
    split_tag "#TAG:    ATTRIBUTES    " = (some "TAG", some "ATTRIBUTES") := by
  have h := c8_split_tag.2.2.2 "#TAG:    ATTRIBUTES    "
    ("TAG".data) ("    ATTRIBUTES    ".data) (by decide) (by decide)
  exact h

/-! ### Attribute-list parser

Modelled from the spec: the grammar (§4.2) is
`attrlist := (attr ("," attr)*)?`, `attr := SP* NAME "=" VALUE SP*`,
`NAME := [A-Z0-9][A-Z0-9-]*`, `VALUE := QUOTED | TOKEN`,
`QUOTED := '"' [^"\r\n]* '"'`, `TOKEN := [^,"\r\n SP]+`.
Whitespace is tolerated only around commas (off-spec tolerance); between
`NAME` and `=`, or between `=` and `VALUE`, it is forbidden.  A failed parse
of any attribute discards the entire list and emits the single warning
`"Discarded invalid attributes list"`. -/

/-- First character of an attribute name: `[A-Z0-9]`. -/
def isNameStart (c : Char) : Bool := (65 ≤ c.toNat && c.toNat ≤ 90) || isDig c

/-- Subsequent character of an attribute name: `[A-Z0-9-]`. -/
def isNameChar (c : Char) : Bool := isNameStart c || c == '-'

/-- Character allowed in an unquoted attribute value. -/
def isTokenChar (c : Char) : Bool :=
  !(c == ',' || c == '"' || c == '\r' || c == '\n' || c == ' ')

/-- Character allowed inside a quoted attribute value. -/
def isQuotedChar (c : Char) : Bool := !(c == '"' || c == '\r' || c == '\n')

/-- A single space (the `SP` of the grammar). -/
def isSp (c : Char) : Bool := c == ' '

/-- Parse a `VALUE` (quoted string or token) followed by `SP*`, returning the
value and the unconsumed remainder. -/
def parseValue : List Char → Option (String × List Char)
  | [] => none
  | v0 :: cs4 =>
    if v0 = '"' then
      match cs4.dropWhile isQuotedChar with
      | q :: rest =>
        if q = '"' then
          some ((cs4.takeWhile isQuotedChar).asString, rest.dropWhile isSp)
        else none
      | [] => none
    else
      if ((v0 :: cs4).takeWhile isTokenChar).isEmpty then none
      else some (((v0 :: cs4).takeWhile isTokenChar).asString,
                 ((v0 :: cs4).dropWhile isTokenChar).dropWhile isSp)

/-- Parse the rest of an attribute once the leading spaces have been split
into the (possibly empty) name run `name` and the remainder `cs2`. -/
def parseNamed (name cs2 : List Char) : Option ((String × String) × List Char) :=
  match name with
  | [] => none
  | c :: nt =>
    if isNameStart c then
      match cs2 with
      | [] => none
      | e :: cs3 =>
        if e = '=' then
          (parseValue cs3).map (fun p => (((c :: nt).asString, p.1), p.2))
        else none
    else none

/-- Parse one `attr := SP* NAME "=" VALUE SP*` from the front, returning the
key/value pair and the unconsumed remainder. -/
def parseOneAttr (cs : List Char) : Option ((String × String) × List Char) :=
  parseNamed ((cs.dropWhile isSp).takeWhile isNameChar)
    ((cs.dropWhile isSp).dropWhile isNameChar)

/-- Fuelled loop over `attr ("," attr)*`. -/
def parseAttrsAux : Nat → List Char → Option (List (String × String))
  | 0, _ => none
  | fuel + 1, cs =>
    match parseOneAttr cs with
    | none => none
    | some (kv, rest) =>
      match rest with
      | [] => some [kv]
      | r :: rest2 =>
        if r = ',' then (parseAttrsAux fuel rest2).map (fun m => kv :: m)
        else none

/-- Modelled from the spec: `parse_attributes` returns the ordered key/value
mapping together with the emitted warnings; an invalid list yields the empty
mapping and the single warning. -/
def parse_attributes (s : String) : List (String × String) × List String :=
  if s.data.isEmpty then ([], [])
  else
    match parseAttrsAux (s.data.length + 1) s.data with
    | some m => (m, [])
    | none => ([], ["Discarded invalid attributes list"])

/-! The declarative grammar of §4.2, as an inductive derivation relation.  It
is stated independently of the executable parser above so that the parser can
be proved sound and complete for it. -/

/-- `NAME := [A-Z0-9][A-Z0-9-]*`. -/
def NameOK : List Char → Prop
  | [] => False
  | c :: rest => isNameStart c = true ∧ ∀ d ∈ rest, isNameChar d = true

/-- Derivation of a `VALUE` (the returned string has quotes stripped and the
interior verbatim). -/
inductive ValDeriv : List Char → String → Prop
  | quoted (v : List Char) (h : ∀ c ∈ v, isQuotedChar c = true) :
      ValDeriv ('"' :: (v ++ ['"'])) v.asString
  | token (v : List Char) (hne : v ≠ []) (h : ∀ c ∈ v, isTokenChar c = true) :
      ValDeriv v v.asString

/-- Derivation of an `attr := SP* NAME "=" VALUE SP*`. -/
inductive AttrDeriv : List Char → String × String → Prop
  | mk (sp1 n vcs sp2 : List Char) (v : String)
      (hsp1 : ∀ c ∈ sp1, c = ' ') (hn : NameOK n) (hv : ValDeriv vcs v)
      (hsp2 : ∀ c ∈ sp2, c = ' ') :
      AttrDeriv (sp1 ++ (n ++ ('=' :: (vcs ++ sp2)))) (n.asString, v)

/-- Derivation of an `attrlist := (attr ("," attr)*)?`. -/
inductive AttrListDeriv : List Char → List (String × String) → Prop
  | nil : AttrListDeriv [] []
  | single {cs : List Char} {kv : String × String} :
      AttrDeriv cs kv → AttrListDeriv cs [kv]
  | cons {cs1 : List Char} {kv : String × String} {cs2 : List Char}
      {m : List (String × String)} :
      AttrDeriv cs1 kv → AttrListDeriv cs2 m → m ≠ [] →
      AttrListDeriv (cs1 ++ (',' :: cs2)) (kv :: m)

/-! ### Soundness and completeness of the attribute-list parser -/

theorem isSp_space {c : Char} (h : c = ' ') : isSp c = true := by
  subst h; decide

theorem space_of_isSp {c : Char} (h : isSp c = true) : c = ' ' := by
  simpa [isSp, beq_iff_eq] using h

theorem isSp_false_of_nameStart {c : Char} (h : isNameStart c = true) :
    isSp c = false := by
  unfold isNameStart isDig at h
  simp only [Bool.or_eq_true, Bool.and_eq_true, decide_eq_true_eq] at h
  by_contra hc
  simp only [Bool.not_eq_false] at hc
  rw [space_of_isSp hc] at h
  revert h
  decide

theorem isNameChar_of_start {c : Char} (h : isNameStart c = true) :
    isNameChar c = true := by
  simp [isNameChar, h]

theorem tokenChar_ne_quote {c : Char} (h : isTokenChar c = true) : ¬ c = '"' := by
  intro he
  subst he
  revert h
  decide

theorem parseOneAttr_complete {pre : List Char} {kv : String × String}
    (rest : List Char) (hd : AttrDeriv pre kv)
    (hrest : ∀ y, rest.head? = some y → y = ',') :
    parseOneAttr (pre ++ rest) = some (kv, rest) := by
  obtain ⟨sp1, n, vcs, sp2, v, hsp1, hn, hv, hsp2⟩ := hd
  cases n with
  | nil => exact False.elim hn
  | cons c nt =>
  obtain ⟨hstart, htail⟩ := hn
  -- facts about the run of spaces after the value
  have hspAll : ∀ x ∈ sp2, isSp x = true := fun x hx => isSp_space (hsp2 x hx)
  have hrestSp : ∀ y, rest.head? = some y → isSp y = false := by
    intro y hy
    rw [hrest y hy]
    decide
  have hdwSp : (sp2 ++ rest).dropWhile isSp = rest :=
    (splitRun sp2 rest hspAll hrestSp).2
  have hheadTok : ∀ y, (sp2 ++ rest).head? = some y → isTokenChar y = false := by
    intro y hy
    cases sp2 with
    | nil =>
      rw [List.nil_append] at hy
      rw [hrest y hy]
      decide
    | cons s ss =>
      simp only [List.cons_append, List.head?_cons, Option.some.injEq] at hy
      rw [← hy, hsp2 s (by simp)]
      decide
  -- re-associate the input
  have harg : (sp1 ++ ((c :: nt) ++ ('=' :: (vcs ++ sp2)))) ++ rest
      = sp1 ++ ((c :: nt) ++ ('=' :: (vcs ++ (sp2 ++ rest)))) := by
    simp [List.append_assoc]
  rw [harg]
  -- strip leading spaces
  have hdw1 : (sp1 ++ ((c :: nt) ++ ('=' :: (vcs ++ (sp2 ++ rest))))).dropWhile isSp
      = (c :: nt) ++ ('=' :: (vcs ++ (sp2 ++ rest))) := by
    refine (splitRun sp1 _ (fun x hx => isSp_space (hsp1 x hx)) ?_).2
    intro y hy
    simp only [List.cons_append, List.head?_cons, Option.some.injEq] at hy
    rw [← hy]
    exact isSp_false_of_nameStart hstart
  -- split off the name
  have hname := splitRun (p := isNameChar) (c :: nt) ('=' :: (vcs ++ (sp2 ++ rest)))
    (fun d hd => by
      rcases List.mem_cons.mp hd with rfl | hd
      · exact isNameChar_of_start hstart
      · exact htail d hd)
    (fun y hy => by
      simp only [List.head?_cons, Option.some.injEq] at hy
      rw [← hy]
      decide)
  simp only [parseOneAttr, hdw1, hname.1, hname.2, parseNamed]
  rw [if_pos hstart, if_pos trivial]
  cases hv with
  | token v' hne htok =>
    cases vcs with
    | nil => exact False.elim (hne rfl)
    | cons v0 vt =>
      have htokRun := splitRun (p := isTokenChar) (v0 :: vt) (sp2 ++ rest)
        (fun x hx => htok x hx) hheadTok
      simp only [List.cons_append] at htokRun
      simp only [List.cons_append, parseValue]
      rw [if_neg (tokenChar_ne_quote (htok v0 (by simp)))]
      rw [htokRun.1, htokRun.2]
      simp [hdwSp]
  | quoted vq hquoted =>
    have hqRun := splitRun (p := isQuotedChar) vq ('"' :: (sp2 ++ rest))
      hquoted
      (fun y hy => by
        simp only [List.head?_cons, Option.some.injEq] at hy
        rw [← hy]
        decide)
    have hshape : ('"' :: (vq ++ ['"'])) ++ (sp2 ++ rest)
        = '"' :: (vq ++ ('"' :: (sp2 ++ rest))) := by
      simp [List.append_assoc]
    rw [hshape]
    simp only [parseValue, if_pos rfl]
    rw [hqRun.1, hqRun.2]
    simp [hdwSp]

theorem parseOneAttr_sound {cs : List Char} {kv : String × String} {rest : List Char}
    (h : parseOneAttr cs = some (kv, rest)) :
    ∃ pre, cs = pre ++ rest ∧ AttrDeriv pre kv := by
  have hcs : cs.takeWhile isSp ++ cs.dropWhile isSp = cs :=
    List.takeWhile_append_dropWhile isSp cs
  have hsp1mem : ∀ x ∈ cs.takeWhile isSp, x = ' ' := fun x hx =>
    space_of_isSp (List.mem_takeWhile_imp hx)
  unfold parseOneAttr parseNamed at h
  split at h
  next heqname => exact absurd h (by simp)
  next c nt heqname =>
    have hnamemem : ∀ d ∈ c :: nt, isNameChar d = true := by
      rw [← heqname]
      exact fun d hd => List.mem_takeWhile_imp hd
    have hcs1 : (c :: nt) ++ (cs.dropWhile isSp).dropWhile isNameChar
        = cs.dropWhile isSp := by
      rw [← heqname]
      exact List.takeWhile_append_dropWhile isNameChar _
    split at h
    case isTrue hst =>
      split at h
      next heq2 => exact absurd h (by simp)
      next e cs3 heq2 =>
        split at h
        case isTrue he =>
          subst he
          cases cs3 with
          | nil => exact absurd h (by simp [parseValue])
          | cons v0 cs4 =>
            simp only [parseValue] at h
            split at h
            case isTrue hq =>
              subst hq
              split at h
              next q rest2 heq3 =>
                split at h
                case isTrue hq2 =>
                  subst hq2
                  simp only [Option.map_some', Option.some.injEq, Prod.mk.injEq] at h
                  obtain ⟨⟨hk1, hk2⟩, hrest⟩ := h
                  set vq := cs4.takeWhile isQuotedChar with hvq
                  set sp2 := rest2.takeWhile isSp with hsp2
                  have hcs4 : vq ++ ('"' :: rest2) = cs4 := by
                    rw [hvq, ← heq3]
                    exact List.takeWhile_append_dropWhile isQuotedChar cs4
                  have hrest2 : sp2 ++ rest = rest2 := by
                    rw [hsp2, ← hrest]
                    exact List.takeWhile_append_dropWhile isSp rest2
                  refine ⟨cs.takeWhile isSp
                    ++ ((c :: nt) ++ ('=' :: (('"' :: (vq ++ ['"'])) ++ sp2))), ?_, ?_⟩
                  · conv_lhs => rw [← hcs, ← hcs1, heq2]
                    rw [← hcs4, ← hrest2]
                    simp [List.append_assoc]
                  · have hmk := AttrDeriv.mk (cs.takeWhile isSp) (c :: nt)
                      ('"' :: (vq ++ ['"'])) sp2 vq.asString
                      hsp1mem
                      ⟨hst, fun d hd => hnamemem d (List.mem_cons_of_mem c hd)⟩
                      (ValDeriv.quoted vq (fun x hx => by
                        rw [hvq] at hx
                        exact List.mem_takeWhile_imp hx))
                      (fun x hx => by
                        rw [hsp2] at hx
                        exact space_of_isSp (List.mem_takeWhile_imp hx))
                    exact hmk
                case isFalse hq2 => exact absurd h (by simp)
              next heq3 => exact absurd h (by simp)
            case isFalse hq =>
              split at h
              case isTrue hemp => exact absurd h (by simp)
              case isFalse hemp =>
                simp only [Option.map_some', Option.some.injEq, Prod.mk.injEq] at h
                obtain ⟨⟨hk1, hk2⟩, hrest⟩ := h
                set tw := (v0 :: cs4).takeWhile isTokenChar with htw
                set dw := (v0 :: cs4).dropWhile isTokenChar with hdw
                set sp2 := dw.takeWhile isSp with hsp2
                have hne : tw ≠ [] := by
                  intro hnil
                  apply hemp
                  rw [hnil]
                  rfl
                have hval : tw ++ dw = v0 :: cs4 := by
                  rw [htw, hdw]
                  exact List.takeWhile_append_dropWhile isTokenChar _
                have hdw2 : sp2 ++ rest = dw := by
                  rw [hsp2, ← hrest]
                  exact List.takeWhile_append_dropWhile isSp dw
                refine ⟨cs.takeWhile isSp
                  ++ ((c :: nt) ++ ('=' :: (tw ++ sp2))), ?_, ?_⟩
                · conv_lhs => rw [← hcs, ← hcs1, heq2]
                  rw [← hval, ← hdw2]
                  simp [List.append_assoc]
                · have hmk := AttrDeriv.mk (cs.takeWhile isSp) (c :: nt)
                    tw sp2 tw.asString
                    hsp1mem
                    ⟨hst, fun d hd => hnamemem d (List.mem_cons_of_mem c hd)⟩
                    (ValDeriv.token tw hne (fun x hx => by
                      rw [htw] at hx
                      exact List.mem_takeWhile_imp hx))
                    (fun x hx => by
                      rw [hsp2] at hx
                      exact space_of_isSp (List.mem_takeWhile_imp hx))
                  exact hmk
        case isFalse he => exact absurd h (by simp)
    case isFalse hst => exact absurd h (by simp)

theorem AttrDeriv.ne_nil {pre : List Char} {kv : String × String}
    (h : AttrDeriv pre kv) : pre ≠ [] := by
  obtain ⟨sp1, n, vcs, sp2, v, hsp1, hn, hv, hsp2⟩ := h
  cases n with
  | nil => exact False.elim hn
  | cons c nt =>
    intro hcon
    rcases List.append_eq_nil.mp hcon with ⟨h1, h2⟩
    rcases List.append_eq_nil.mp h2 with ⟨h3, h4⟩
    exact List.cons_ne_nil c nt h3

theorem AttrListDeriv.nil_inv {cs : List Char} (h : AttrListDeriv cs []) :
    cs = [] := by
  cases h
  rfl

theorem AttrListDeriv.cs_ne_nil {cs : List Char} {m : List (String × String)}
    (h : AttrListDeriv cs m) (hm : m ≠ []) : cs ≠ [] := by
  cases h with
  | nil => exact absurd rfl hm
  | single hd => exact hd.ne_nil
  | cons hd htail hne =>
    intro hcon
    rcases List.append_eq_nil.mp hcon with ⟨h1, h2⟩
    exact hd.ne_nil h1

theorem parseAttrsAux_complete {cs : List Char} {m : List (String × String)}
    (h : AttrListDeriv cs m) (hm : m ≠ []) :
    ∀ fuel, cs.length + 1 ≤ fuel → parseAttrsAux fuel cs = some m := by
  induction h with
  | nil => exact absurd rfl hm
  | single hd =>
    intro fuel hfuel
    cases fuel with
    | zero => omega
    | succ f =>
      have h1 := parseOneAttr_complete [] hd (fun y hy => by simp at hy)
      rw [List.append_nil] at h1
      simp only [parseAttrsAux, h1]
  | cons hd htail hne ih =>
    intro fuel hfuel
    cases fuel with
    | zero => omega
    | succ f =>
      rename_i cs1 kv cs2 m'
      have h1 := parseOneAttr_complete (',' :: cs2) hd (fun y hy => by
        simp only [List.head?_cons, Option.some.injEq] at hy
        exact hy.symm)
      simp only [parseAttrsAux, h1]
      rw [if_pos trivial]
      have hf : cs2.length + 1 ≤ f := by
        simp only [List.length_append, List.length_cons] at hfuel
        omega
      rw [ih hne f hf]
      rfl

theorem parseAttrsAux_sound :
    ∀ fuel (cs : List Char) (m : List (String × String)),
      parseAttrsAux fuel cs = some m → AttrListDeriv cs m ∧ m ≠ [] := by
  intro fuel
  induction fuel with
  | zero => intro cs m h; exact absurd h (by simp [parseAttrsAux])
  | succ f ih =>
    intro cs m h
    unfold parseAttrsAux at h
    split at h
    next heq1 => exact absurd h (by simp)
    next kv rest heq1 =>
      obtain ⟨pre, hpre, hderiv⟩ := parseOneAttr_sound heq1
      split at h
      next =>
        -- rest = []
        simp only [Option.some.injEq] at h
        subst h
        rw [List.append_nil] at hpre
        subst hpre
        exact ⟨AttrListDeriv.single hderiv, by simp⟩
      next r rest2 =>
        split at h
        case isTrue hr =>
          subst hr
          cases haux : parseAttrsAux f rest2 with
          | none => rw [haux] at h; exact absurd h (by simp)
          | some m' =>
            rw [haux] at h
            simp only [Option.map_some', Option.some.injEq] at h
            subst h
            obtain ⟨hd2, hne2⟩ := ih rest2 m' haux
            subst hpre
            exact ⟨AttrListDeriv.cons hderiv hd2 hne2, by simp⟩
        case isFalse hr => exact absurd h (by simp)

/-- C3: `parse_attributes` is sound and complete for the attribute-list
grammar of §4.2: a string derivable as a (possibly empty) attribute list is
returned in full with no warning, and any other string yields the empty
mapping together with exactly the single warning
`"Discarded invalid attributes list"` — never a partial mapping. -/
theorem c3_parse_attributes (s : String) :
    (∀ m, AttrListDeriv s.data m → parse_attributes s = (m, [])) ∧
    ((¬ ∃ m, AttrListDeriv s.data m) →
      parse_attributes s = ([], ["Discarded invalid attributes list"])) := by
  constructor
  · intro m hm
    by_cases hmn : m = []
    · subst hmn
      have : s.data = [] := hm.nil_inv
      unfold parse_attributes
      rw [if_pos (by rw [this]; rfl)]
    · have hcs : s.data ≠ [] := hm.cs_ne_nil hmn
      unfold parse_attributes
      rw [if_neg (by simp [List.isEmpty_iff, hcs])]
      rw [parseAttrsAux_complete hm hmn (s.data.length + 1) le_rfl]
  · intro hno
    by_cases hd : s.data = []
    · exact absurd ⟨[], hd ▸ AttrListDeriv.nil⟩ hno
    · unfold parse_attributes
      rw [if_neg (by simp [List.isEmpty_iff, hd])]
      cases haux : parseAttrsAux (s.data.length + 1) s.data with
      | none => rfl
      | some m =>
        exact absurd ⟨m, (parseAttrsAux_sound _ _ _ haux).1⟩ hno

/-- Concrete witness for C3: the off-spec row
`'A="foo", B=123 , C=VALUE,D=456 '` of the repository's
`test_parse_attributes` is derivable and parsed in full with no warning. -/
theorem c3_parse_attributes_witness :
    parse_attributes "A=\"foo\", B=123 , C=VALUE,D=456 "
      = ([("A", "foo"), ("B", "123"), ("C", "VALUE"), ("D", "456")], []) := by
  have dA : AttrDeriv ("A=\"foo\"".data) ("A", "foo") := by
    rw [show ("A=\"foo\"".data)
        = [] ++ ("A".data ++ ('=' :: (('"' :: ("foo".data ++ ['"'])) ++ [])))
      from by decide]
    exact AttrDeriv.mk _ _ _ _ "foo" (by simp) ⟨by decide, by decide⟩
      (ValDeriv.quoted ("foo".data) (by decide)) (by simp)
  have dB : AttrDeriv (" B=123 ".data) ("B", "123") := by
    rw [show (" B=123 ".data)
        = [' '] ++ ("B".data ++ ('=' :: ("123".data ++ [' '])))
      from by decide]
    exact AttrDeriv.mk _ _ _ _ "123" (by simp) ⟨by decide, by decide⟩
      (ValDeriv.token ("123".data) (by decide) (by decide)) (by simp)
  have dC : AttrDeriv ("C=VALUE".data) ("C", "VALUE") := by
    rw [show ("C=VALUE".data)
        = [] ++ ("C".data ++ ('=' :: ("VALUE".data ++ [])))
      from by decide]
    exact AttrDeriv.mk _ _ _ _ "VALUE" (by simp) ⟨by decide, by decide⟩
      (ValDeriv.token ("VALUE".data) (by decide) (by decide)) (by simp)
  have dD : AttrDeriv ("D=456 ".data) ("D", "456") := by
    rw [show ("D=456 ".data)
        = [] ++ ("D".data ++ ('=' :: ("456".data ++ [' '])))
      from by decide]
    exact AttrDeriv.mk _ _ _ _ "456" (by simp) ⟨by decide, by decide⟩
      (ValDeriv.token ("456".data) (by decide) (by decide)) (by simp)
  have lCD : AttrListDeriv ("C=VALUE,D=456 ".data) [("C", "VALUE"), ("D", "456")] := by
    rw [show ("C=VALUE,D=456 ".data) = "C=VALUE".data ++ (',' :: "D=456 ".data)
      from by decide]
    exact AttrListDeriv.cons dC (AttrListDeriv.single dD) (by simp)
  have lBCD : AttrListDeriv (" B=123 , C=VALUE,D=456 ".data)
      [("B", "123"), ("C", "VALUE"), ("D", "456")] := by
    rw [show (" B=123 , C=VALUE,D=456 ".data)
        = " B=123 ".data ++ (',' :: " C=VALUE,D=456 ".data) from by decide]
    refine AttrListDeriv.cons dB ?_ (by simp)
    rw [show (" C=VALUE,D=456 ".data)
        = " C=VALUE".data ++ (',' :: "D=456 ".data) from by decide]
    refine AttrListDeriv.cons ?_ (AttrListDeriv.single dD) (by simp)
    rw [show (" C=VALUE".data)
        = [' '] ++ ("C".data ++ ('=' :: ("VALUE".data ++ []))) from by decide]
    exact AttrDeriv.mk _ _ _ _ "VALUE" (by simp) ⟨by decide, by decide⟩
      (ValDeriv.token ("VALUE".data) (by decide) (by decide)) (by simp)
  have lAll : AttrListDeriv ("A=\"foo\", B=123 , C=VALUE,D=456 ".data)
      [("A", "foo"), ("B", "123"), ("C", "VALUE"), ("D", "456")] := by
    rw [show ("A=\"foo\", B=123 , C=VALUE,D=456 ".data)
        = "A=\"foo\"".data ++ (',' :: " B=123 , C=VALUE,D=456 ".data) from by decide]
    exact AttrListDeriv.cons dA lBCD (by simp)
  exact (c3_parse_attributes _).1 _ lAll

/-- Model validation: the attribute-list parser reproduces every row of the
repository's `test_parse_attributes` (the `log` column shown as the warning
list). -/
theorem parse_attributes_test_rows :
    [ "", "invalid", "?=VALUE", "key=VALUE", "KEY = VALUE", "KEY=",
      "KEY=\"", "KEY=123", "KEY=0xdeadbeef", "KEY=0XDEADBEEF",
      "KEY=123.456", "KEY=-123.456", "KEY=\"\"", "KEY=\"foobar\"",
      "KEY=\"foo\"bar\"", "KEY=\"foo\rbar\"", "KEY=\"foo\nbar\"",
      "KEY=VALUE", "KEY=<@_@>", "KEY=1920x1080", "KEY-123=VALUE",
      "A=123,B=0xdeadbeef,C=123.456,D=-123.456,E=\"value, value, value\",F=VALUE,G=1920x1080",
      "A=\"foo\"B=123", "A=\"foo\",B = 123", "A=\"foo\",B="
    ].map parse_attributes
    = [ ([], []),
        ([], ["Discarded invalid attributes list"]),
        ([], ["Discarded invalid attributes list"]),
        ([], ["Discarded invalid attributes list"]),
        ([], ["Discarded invalid attributes list"]),
        ([], ["Discarded invalid attributes list"]),
        ([], ["Discarded invalid attributes list"]),
        ([("KEY", "123")], []),
        ([("KEY", "0xdeadbeef")], []),
        ([("KEY", "0XDEADBEEF")], []),
        ([("KEY", "123.456")], []),
        ([("KEY", "-123.456")], []),
        ([("KEY", "")], []),
        ([("KEY", "foobar")], []),
        ([], ["Discarded invalid attributes list"]),
        ([], ["Discarded invalid attributes list"]),
        ([], ["Discarded invalid attributes list"]),
        ([("KEY", "VALUE")], []),
        ([("KEY", "<@_@>")], []),
        ([("KEY", "1920x1080")], []),
        ([("KEY-123", "VALUE")], []),
        ([("A", "123"), ("B", "0xdeadbeef"), ("C", "123.456"),
          ("D", "-123.456"), ("E", "value, value, value"), ("F", "VALUE"),
          ("G", "1920x1080")], []),
        ([], ["Discarded invalid attributes list"]),
        ([], ["Discarded invalid attributes list"]),
        ([], ["Discarded invalid attributes list"]) ] := by
  decide

/-! ### Numeric, boolean and date-time primitives

Modelled from the spec: §4.1 lexical primitives.  Dates and timedeltas are
embedded as integers of microseconds — exactly the resolution of the Python
`datetime`/`timedelta` values the implementation uses; every quantity
appearing in the spec and tests is exactly representable. -/

/-- Value of a run of decimal digits. -/
def digitsToNat (cs : List Char) : Nat :=
  cs.foldl (fun a c => 10 * a + (c.toNat - 48)) 0

/-- Strict decimal natural parser: digits only. -/
def parseNatC (cs : List Char) : Option Nat :=
  if cs ≠ [] ∧ cs.all isDig then some (digitsToNat cs) else none

/-- Modelled from the spec: decimal integer decoding, `0` on failure. -/
def parse_int (cs : List Char) : Nat := (parseNatC cs).getD 0

/-- Microseconds denoted by a fractional-part digit run. -/
def fracToMicro (frac : List Char) : Nat :=
  digitsToNat frac * 1000000 / 10 ^ frac.length

/-- Unsigned decimal number with optional fractional part, in microseconds. -/
def parseUnsignedMicro (cs : List Char) : Option Nat :=
  let ip := cs.takeWhile isDig
  if ip.isEmpty then none
  else
    match cs.dropWhile isDig with
    | [] => some (digitsToNat ip * 1000000)
    | '.' :: frac =>
      if frac ≠ [] ∧ frac.all isDig then
        some (digitsToNat ip * 1000000 + fracToMicro frac)
      else none
    | _ => none

/-- Signed decimal number in microseconds: optional sign, digits, optional
fraction. -/
def parseMicroC : List Char → Option ℤ
  | '-' :: rest => (parseUnsignedMicro rest).map (fun q => -(q : ℤ))
  | '+' :: rest => (parseUnsignedMicro rest).map (fun q => (q : ℤ))
  | cs => (parseUnsignedMicro cs).map (fun q => (q : ℤ))

/-- Modelled from the spec: `parse_timedelta` — float seconds, possibly
negative; `null` input stays `null`. -/
def parse_timedelta (s : Option String) : Option ℤ :=
  s.bind (fun v => parseMicroC v.data)

/-- Modelled from the spec: `parse_bool` — `"YES"` is true, all else false. -/
def parse_bool (s : String) : Bool := s == "YES"

/-- Modelled from the spec: `parse_extinf` — `"<duration>[,<title>]"`, with
an empty or invalid duration yielding `(0.0, null)`. -/
def parse_extinf (cs : List Char) : ℤ × Option String :=
  let d := cs.takeWhile (fun c => !(c == ','))
  match parseMicroC d with
  | none => (0, none)
  | some q =>
    match cs.dropWhile (fun c => !(c == ',')) with
    | [] => (q, none)
    | _ :: t => (q, some t.asString)

/-- Read exactly `n` decimal digits, accumulating their value. -/
def readNAux : Nat → Nat → List Char → Option (Nat × List Char)
  | acc, 0, cs => some (acc, cs)
  | _, _ + 1, [] => none
  | acc, n + 1, c :: cs =>
    if isDig c then readNAux (10 * acc + (c.toNat - 48)) n cs else none

/-- Read exactly `n` decimal digits. -/
def readN (n : Nat) (cs : List Char) : Option (Nat × List Char) := readNAux 0 n cs

/-- Consume one expected character. -/
def expectC (c : Char) : List Char → Option (List Char)
  | [] => none
  | d :: cs => if d = c then some cs else none

/-- Gregorian leap year. -/
def isLeap (y : Nat) : Bool := (y % 4 == 0 && !(y % 100 == 0)) || y % 400 == 0

/-- Days in a month of the Gregorian calendar. -/
def daysInMonth (y m : Nat) : Nat :=
  if m = 2 then (if isLeap y then 29 else 28)
  else if m = 4 ∨ m = 6 ∨ m = 9 ∨ m = 11 then 30
  else 31

/-- Days in the months before month `m` of year `y`. -/
def daysBeforeMonth (y m : Nat) : Nat :=
  ((List.range (m - 1)).map (fun i => daysInMonth y (i + 1))).sum

/-- Days from 0001-01-01 to the given civil date. -/
def daysSinceEpochA (y m d : Nat) : Nat :=
  365 * (y - 1) + ((y - 1) / 4 - (y - 1) / 100 + (y - 1) / 400)
    + daysBeforeMonth y m + (d - 1)

/-- Parse the timezone designator `Z | ±HH:MM`, returning the offset in
microseconds. -/
def readTz : List Char → Option (ℤ × List Char)
  | [] => none
  | t :: cs =>
    if t = 'Z' then some (0, cs)
    else if t = '+' ∨ t = '-' then
      match readN 2 cs with
      | none => none
      | some (th, cs1) =>
        match expectC ':' cs1 with
        | none => none
        | some cs2 =>
          match readN 2 cs2 with
          | none => none
          | some (tm, cs3) =>
            if th ≤ 23 ∧ tm ≤ 59 then
              some ((if t = '+' then (1 : ℤ) else -1)
                * ((th * 3600 + tm * 60) * 1000000 : Nat), cs3)
            else none
    else none

/-- Core ISO8601 parser for `YYYY-MM-DDTHH:MM:SS[.fff]Z|±HH:MM` with range
checks, yielding microseconds (UTC) since 0001-01-01T00:00:00. -/
def parseIso8601Core (cs : List Char) : Option ℤ := do
  let (y, cs) ← readN 4 cs
  let cs ← expectC '-' cs
  let (mo, cs) ← readN 2 cs
  let cs ← expectC '-' cs
  let (d, cs) ← readN 2 cs
  let cs ← expectC 'T' cs
  let (h, cs) ← readN 2 cs
  let cs ← expectC ':' cs
  let (mi, cs) ← readN 2 cs
  let cs ← expectC ':' cs
  let (sec, cs) ← readN 2 cs
  let (frac, cs) ←
    match cs with
    | '.' :: cs2 =>
      let fs := cs2.takeWhile isDig
      if fs.isEmpty then (none : Option (Nat × List Char))
      else some (fracToMicro fs, cs2.dropWhile isDig)
    | _ => some ((0 : Nat), cs)
  let (off, cs) ← readTz cs
  if cs = [] ∧ 1 ≤ y ∧ 1 ≤ mo ∧ mo ≤ 12 ∧ 1 ≤ d ∧ d ≤ daysInMonth y mo
      ∧ h ≤ 23 ∧ mi ≤ 59 ∧ sec ≤ 59 then
    some ((((daysSinceEpochA y mo d * 86400 + h * 3600 + mi * 60 + sec) * 1000000
      + frac : Nat) : ℤ) - off)
  else none

/-- Modelled from the spec: `parse_iso8601` — full date+time with mandatory
timezone; date-only or out-of-range input yields `null` plus the warning
`"Discarded invalid ISO8601 attribute value"`; `null` stays `null` silently. -/
def parse_iso8601 : Option String → Option ℤ × List String
  | none => (none, [])
  | some s =>
    match parseIso8601Core s.data with
    | some t => (some t, [])
    | none => (none, ["Discarded invalid ISO8601 attribute value"])

/-- Value of 2000-01-01T00:00:00Z in this embedding (microseconds). -/
def epoch2000 : ℤ := 63082281600000000

/-- One second, in the units of this embedding. -/
def sec1 : ℤ := 1000000

/-- Model validation: the primitives reproduce the rows of
`test_parse_iso8601`, `test_parse_timedelta`, `test_parse_bool` and
`test_parse_extinf`. -/
theorem primitives_test_rows :
    ( [ none, some "not an ISO8601 string", some "2000-01-01",
        some "2000-99-99T99:99:99.999Z",
        some "2000-01-01T00:00:00.000Z" ].map parse_iso8601,
      [ none, some "123", some "123.456", some "-123.456"
      ].map parse_timedelta,
      [ "", "NO", "YES" ].map parse_bool,
      [ "", "invalid", "123", "123.456", "123.456,foo"
      ].map (fun s => parse_extinf s.data) )
    = ( [ (none, []),
          (none, ["Discarded invalid ISO8601 attribute value"]),
          (none, ["Discarded invalid ISO8601 attribute value"]),
          (none, ["Discarded invalid ISO8601 attribute value"]),
          (some epoch2000, []) ],
        [ none, some (123 * sec1), some 123456000, some (-123456000) ],
        [ false, false, true ],
        [ (0, none), (0, none), (123 * sec1, none), (123456000, none),
          (123456000, some "foo") ] ) := by
  decide

/-! ### Data model -/

/-- Modelled from the spec: the `DateRange` record (§3; fields restricted to
those the claims touch — all fields of the test's `DateRange`). -/
structure DateRange where
  id : Option String
  classname : Option String
  start_date : Option ℤ
  end_date : Option ℤ
  duration : Option ℤ
  planned_duration : Option ℤ
  end_on_next : Bool
  x : List (String × String)
deriving DecidableEq

/-- Modelled from the spec: the `Segment` record (§3; the `key`, `map`,
`byterange` and `discontinuity` decorations are orthogonal to every claim and
omitted). -/
structure Segment where
  uri : String
  num : Nat
  duration : ℤ
  title : Option String
  date : Option ℤ
deriving DecidableEq

/-! ### `is_date_in_daterange`

Modelled from the spec §4.5 as corrected by the repository's own test
`TestHLSPlaylist.test_parse_date` (lines 588-595): the test's
`end-precedence` range (both `DURATION` and `END-DATE` set) still contains
`start+30.5s`, so `END-DATE` — not `DURATION` — bounds the interval when both
are present, and the `planned-duration` range excludes `start+15s`, so
`PLANNED-DURATION` is used as a fallback when `DURATION` is absent.  The
interval is half-open and unbounded when no end is known. -/

/-- Modelled from the spec (corrected per the tests, see above):
`is_date_in_daterange`. -/
def is_date_in_daterange (date : Option ℤ) (dr : DateRange) : Option Bool :=
  match date, dr.start_date with
  | some d, some s =>
    match dr.end_date with
    | some e => some (decide (s ≤ d ∧ d < e))
    | none =>
      match dr.duration with
      | some du => some (decide (s ≤ d ∧ d < s + du))
      | none =>
        match dr.planned_duration with
        | some pd => some (decide (s ≤ d ∧ d < s + pd))
        | none => some (decide (s ≤ d))
  | _, _ => none

/-- The claim C1's reading of §4.5, stated verbatim from the spec's words
(`end = start + duration` if `duration` is set, else `end_date` if set, else
`+∞`; `PLANNED-DURATION` playing no role): the predicted result for present
date and start. -/
def specC1Predicted (d s : ℤ) (dr : DateRange) : Bool :=
  match dr.duration with
  | some du => decide (s ≤ d ∧ d < s + du)
  | none =>
    match dr.end_date with
    | some e => decide (s ≤ d ∧ d < e)
    | none => decide (s ≤ d)

/-- The `planned-duration` range of the repository's `test_date.m3u8`:
`START-DATE` at 2000-01-01T00:00:00Z, `PLANNED-DURATION` 15s, no `DURATION`,
no `END-DATE`. -/
def drPlanned : DateRange :=
  { id := some "planned-duration", classname := none,
    start_date := some epoch2000, end_date := none, duration := none,
    planned_duration := some (15 * sec1), end_on_next := false, x := [] }

/-- The `end-precedence` range of the repository's `test_date.m3u8`:
`START-DATE` at 2000-01-01T00:00:00Z, `DURATION` 30.5s and `END-DATE` at
start+60s. -/
def drEndPrec : DateRange :=
  { id := some "end-precedence", classname := none,
    start_date := some epoch2000, end_date := some (epoch2000 + 60 * sec1),
    duration := some (30500000 : ℤ), planned_duration := none,
    end_on_next := false, x := [] }

/-- C1 counterexample: the claim's interval (duration, else end-date, else
+∞, planned-duration playing no role) predicts `true` for the
`planned-duration` range at `start+15s` and `true` for the `end-precedence`
range nowhere beyond `start+30.5s`, but the code returns `false`
resp. `true`: the repository's test (rows for segments 1 and 2 of
`test_parse_date`) pins both outcomes against the claim. -/
theorem c1_counterexample :
    (drPlanned.duration = none ∧ drPlanned.end_date = none ∧
      drPlanned.start_date = some epoch2000 ∧
      specC1Predicted (epoch2000 + 15 * sec1) epoch2000 drPlanned = true ∧
      is_date_in_daterange (some (epoch2000 + 15 * sec1)) drPlanned
        = some false) ∧
    (drEndPrec.duration = some 30500000 ∧
      drEndPrec.start_date = some epoch2000 ∧
      specC1Predicted (epoch2000 + 30500000) epoch2000 drEndPrec = false ∧
      is_date_in_daterange (some (epoch2000 + 30500000)) drEndPrec
        = some true) :=
  by decide

/-- C1 (amended): `is_date_in_daterange` returns null when the date or the
range's start is missing; otherwise, with `end` defined as `dr.end_date` when
set, else `dr.start_date + dr.duration` when duration is set, else
`dr.start_date + dr.planned_duration` when planned duration is set, else
`+∞`, it returns exactly `dr.start_date ≤ d < end` (half-open). -/
theorem c1_is_date_in_daterange :
    (∀ dr, is_date_in_daterange none dr = none) ∧
    (∀ d dr, dr.start_date = none → is_date_in_daterange d dr = none) ∧
    (∀ (d s e : ℤ) dr, dr.start_date = some s → dr.end_date = some e →
      is_date_in_daterange (some d) dr = some (decide (s ≤ d ∧ d < e))) ∧
    (∀ (d s du : ℤ) dr, dr.start_date = some s → dr.end_date = none →
      dr.duration = some du →
      is_date_in_daterange (some d) dr = some (decide (s ≤ d ∧ d < s + du))) ∧
    (∀ (d s pd : ℤ) dr, dr.start_date = some s → dr.end_date = none →
      dr.duration = none → dr.planned_duration = some pd →
      is_date_in_daterange (some d) dr = some (decide (s ≤ d ∧ d < s + pd))) ∧
    (∀ (d s : ℤ) dr, dr.start_date = some s → dr.end_date = none →
      dr.duration = none → dr.planned_duration = none →
      is_date_in_daterange (some d) dr = some (decide (s ≤ d))) := by
  refine ⟨fun dr => rfl, ?_, ?_, ?_, ?_, ?_⟩
  · intro d dr h
    cases d with
    | none => rfl
    | some x => simp only [is_date_in_daterange, h]
  · intro d s e dr hs he
    simp only [is_date_in_daterange, hs, he]
  · intro d s du dr hs he hdu
    simp only [is_date_in_daterange, hs, he, hdu]
  · intro d s pd dr hs he hdu hpd
    simp only [is_date_in_daterange, hs, he, hdu, hpd]
  · intro d s dr hs he hdu hpd
    simp only [is_date_in_daterange, hs, he, hdu, hpd]

/-- Witness for C1 (amended), at the test's `end-precedence` range and the
date `start+30.5s`: the end-date branch applies and contains the date. -/
theorem c1_is_date_in_daterange_witness :
    is_date_in_daterange (some (epoch2000 + 30500000)) drEndPrec
      = some (decide (epoch2000 ≤ epoch2000 + 30500000
          ∧ epoch2000 + 30500000 < epoch2000 + 60 * sec1)) :=
  c1_is_date_in_daterange.2.2.1 (epoch2000 + 30500000) epoch2000
    (epoch2000 + 60 * sec1) drEndPrec (by decide) (by decide)

/-! ### `EXT-X-DATERANGE` record construction -/

/-- Lookup in the ordered attribute mapping. -/
def alookup (m : List (String × String)) (k : String) : Option String :=
  m.lookup k

/-- Modelled from the spec: the `EXT-X-DATERANGE` handler builds a
`DateRange` from the tag's attribute mapping — `ID`, `CLASS`, `START-DATE`,
`END-DATE`, `DURATION`, `PLANNED-DURATION`, `END-ON-NEXT` are decoded with
the lexical primitives, and all `X-*` client attributes are collected
verbatim into `x` (§4.4, §3). -/
def mkDateRange (m : List (String × String)) : DateRange :=
  { id := alookup m "ID"
    classname := alookup m "CLASS"
    start_date := (parse_iso8601 (alookup m "START-DATE")).1
    end_date := (parse_iso8601 (alookup m "END-DATE")).1
    duration := parse_timedelta (alookup m "DURATION")
    planned_duration := parse_timedelta (alookup m "PLANNED-DURATION")
    end_on_next :=
      match alookup m "END-ON-NEXT" with
      | some v => parse_bool v
      | none => false
    x := m.filter (fun kv => hasPrefixC ("X-".data) kv.1.data) }

/-- The attribute string of the test playlist's `end-precedence` date range:
both `DURATION` and `END-DATE` are specified. -/
def endPrecAttrs : String :=
  "ID=\"end-precedence\",START-DATE=\"2000-01-01T00:00:00.000Z\",END-DATE=\"2000-01-01T00:01:00.000Z\",DURATION=30.5"

/-- C2 counterexample: on a `DateRange` carrying both `DURATION` (30.5s) and
`END-DATE` (start+60s) — as built by the parser from the test's
`end-precedence` attribute list — the date `start+45s` lies beyond the
`DURATION` end, so the claim (`DURATION` wins) predicts `false`, yet
`is_date_in_daterange` returns `true`: `END-DATE` determines the interval
end, exactly as the repository's test demands. -/
theorem c2_counterexample :
    (mkDateRange (parse_attributes endPrecAttrs).1).duration = some 30500000 ∧
    (mkDateRange (parse_attributes endPrecAttrs).1).end_date
      = some (epoch2000 + 60 * sec1) ∧
    (mkDateRange (parse_attributes endPrecAttrs).1).start_date
      = some epoch2000 ∧
    specC1Predicted (epoch2000 + 45 * sec1) epoch2000
      (mkDateRange (parse_attributes endPrecAttrs).1) = false ∧
    is_date_in_daterange (some (epoch2000 + 45 * sec1))
      (mkDateRange (parse_attributes endPrecAttrs).1) = some true := by
  decide

/-- C2 (amended): when a `DateRange` specifies both `DURATION` and
`END-DATE`, both decoded values are retained on the parsed record, and the
`END-DATE` value (not `DURATION`) determines the end of the interval used by
`is_date_in_daterange`. -/
theorem c2_daterange_both_retained :
    (∀ m (du e : ℤ), parse_timedelta (alookup m "DURATION") = some du →
      (parse_iso8601 (alookup m "END-DATE")).1 = some e →
      (mkDateRange m).duration = some du ∧ (mkDateRange m).end_date = some e) ∧
    (∀ (d s e du : ℤ) dr, dr.start_date = some s → dr.end_date = some e →
      dr.duration = some du →
      is_date_in_daterange (some d) dr = some (decide (s ≤ d ∧ d < e))) := by
  constructor
  · intro m du e h1 h2
    exact ⟨by simp only [mkDateRange, h1], by simp only [mkDateRange, h2]⟩
  · intro d s e du dr hs he hdu
    simp only [is_date_in_daterange, hs, he]

/-- Witness for C2 (amended) at the test's `end-precedence` data: both
values retained, and the date `start+45s` (beyond the 30.5s duration but
before the end date) is reported inside the range. -/
theorem c2_daterange_both_retained_witness :
    ((mkDateRange (parse_attributes endPrecAttrs).1).duration = some 30500000
      ∧ (mkDateRange (parse_attributes endPrecAttrs).1).end_date
          = some (epoch2000 + 60 * sec1)) ∧
    is_date_in_daterange (some (epoch2000 + 45 * sec1))
        (mkDateRange (parse_attributes endPrecAttrs).1)
      = some (decide (epoch2000 ≤ epoch2000 + 45 * sec1
          ∧ epoch2000 + 45 * sec1 < epoch2000 + 60 * sec1)) :=
  ⟨c2_daterange_both_retained.1 (parse_attributes endPrecAttrs).1
      30500000 (epoch2000 + 60 * sec1) (by decide) (by decide),
   c2_daterange_both_retained.2 (epoch2000 + 45 * sec1) epoch2000
      (epoch2000 + 60 * sec1) 30500000
      (mkDateRange (parse_attributes endPrecAttrs).1)
      (by decide) (by decide) (by decide)⟩

/-- Witness for C7 at the test's odd-nibble input `"0xdeadbee"` and the
invalid input `"deadbeef"`. -/
theorem c7_parse_hex_witness :
    (parse_hex (some "deadbeef")
      = (none, ["Discarded invalid hexadecimal-sequence attribute value"])) ∧
    ∃ bs, parse_hex (some "0xdeadbee") = (some bs, []) ∧
      bs.length = ("0xdeadbee".data.length - 2 + 1) / 2 ∧
      (∀ b ∈ bs, b < 256) ∧
      bytesBE bs = nibblesBE (("0xdeadbee".data.drop 2).map hexDigitVal) :=
  ⟨c7_parse_hex.2.1 "deadbeef" (by decide),
   c7_parse_hex.2.2.1 "0xdeadbee" (by decide)⟩

/-! ### Line-driven state machine

Modelled from the spec: §4.4.  The driver processes lines one by one: it
trims the line, skips blanks, dispatches `#EXT…` lines through `split_tag`
to the tag handlers, ignores other `#` comment lines, and treats everything
else as a URI line committing the pending segment decorators.  Only the tags
the claims touch are handled (unknown tags are ignored, as specified); URI
resolution is the identity here (claims do not constrain it). -/

/-- Parser state: the playlist fields the claims touch plus the pending
decorators (§4.4). -/
structure PState where
  version : Nat
  targetduration : Option Nat
  media_sequence : Nat
  segments : List Segment
  dateranges : List DateRange
  date : Option ℤ
  extinf : Option (ℤ × Option String)
  nextNum : Nat
deriving DecidableEq

/-- The initial parser state. -/
def initState : PState :=
  { version := 0, targetduration := none, media_sequence := 0, segments := [],
    dateranges := [], date := none, extinf := none, nextNum := 0 }

/-- Modelled from the spec: the tag handlers of §4.4 (behavioural summary
table).  `EXT-X-MEDIA-SEQUENCE` is late-binding: it sets `media_sequence`
and renumbers from the current index onwards (§4.4, §9 "treat as
late-binding (warn) rather than retroactively renumbering").
`EXT-X-PROGRAM-DATE-TIME` sets the reference datetime used for the next
segment; `EXTINF` stores the pending duration/title; `EXT-X-DATERANGE`
appends a `DateRange`. -/
def handleTag (s : PState) (name : List Char) (attrs : List Char) : PState :=
  if name.asString = "EXT-X-VERSION" then
    { s with version := parse_int attrs }
  else if name.asString = "EXT-X-TARGETDURATION" then
    { s with targetduration := some (parse_int attrs) }
  else if name.asString = "EXT-X-MEDIA-SEQUENCE" then
    { s with media_sequence := parse_int attrs, nextNum := parse_int attrs }
  else if name.asString = "EXTINF" then
    { s with extinf := some (parse_extinf attrs) }
  else if name.asString = "EXT-X-PROGRAM-DATE-TIME" then
    { s with date := (parse_iso8601 (some attrs.asString)).1 }
  else if name.asString = "EXT-X-DATERANGE" then
    { s with dateranges :=
        s.dateranges ++ [mkDateRange (parse_attributes attrs.asString).1] }
  else s

/-- Modelled from the spec: a URI line commits the pending decorators — it
emits a segment consuming the pending `ExtInf`, numbered from the running
counter, dated from the program-date-time accumulator which then advances by
the segment's duration (§4.4 step 4, §9 date arithmetic); a stray URI line
without a pending `EXTINF` is ignored (§7). -/
def commitUri (s : PState) (uri : String) : PState :=
  match s.extinf with
  | none => s
  | some (d, title) =>
    { s with
      segments := s.segments ++
        [{ uri := uri, num := s.nextNum, duration := d, title := title,
           date := s.date }],
      nextNum := s.nextNum + 1,
      extinf := none,
      date := s.date.map (fun t => t + d) }

/-- Modelled from the spec: per-line classification (§4.4): trim, skip
blanks, dispatch `#EXT…` tag lines, ignore other comments, commit URI
lines. -/
def parseLine (s : PState) (line : String) : PState :=
  let tc := stripChars line.data
  if tc.isEmpty then s
  else if hasPrefixC ("#EXT".data) tc then
    match splitTagC tc with
    | some (name, attrs) => handleTag s name attrs
    | none => s
  else if hasPrefixC ("#".data) tc then s
  else commitUri s tc.asString

/-- Run the driver over a list of lines. -/
def run : PState → List String → PState
  | s, [] => s
  | s, l :: ls => run (parseLine s l) ls

/-- Modelled from the spec: the parse entry point over pre-split lines. -/
def parseM3U8 (lines : List String) : PState := run initState lines

/-- The tag name a line would dispatch to, if any. -/
def lineTagName (line : String) : Option String :=
  let tc := stripChars line.data
  if tc.isEmpty then none
  else if hasPrefixC ("#EXT".data) tc then
    (splitTagC tc).map (fun p => p.1.asString)
  else none

/-- Whether a line is an `EXT-X-PROGRAM-DATE-TIME` tag line. -/
def isPdtLine (line : String) : Bool :=
  lineTagName line == some "EXT-X-PROGRAM-DATE-TIME"

/-- Whether a line is an `EXT-X-MEDIA-SEQUENCE` tag line. -/
def isMsLine (line : String) : Bool :=
  lineTagName line == some "EXT-X-MEDIA-SEQUENCE"

/-- The program-date-time value a PDT tag line sets. -/
def pdtValue (line : String) : Option ℤ :=
  match splitTagC (stripChars line.data) with
  | some (_, attrs) => (parse_iso8601 (some attrs.asString)).1
  | none => none

theorem parseLine_classify (s : PState) (l : String)
    (hpdt : isPdtLine l = false) :
    ((parseLine s l).segments = s.segments ∧ (parseLine s l).date = s.date) ∨
    ∃ sg, (parseLine s l).segments = s.segments ++ [sg] ∧ sg.date = s.date ∧
      (parseLine s l).date = s.date.map (fun t => t + sg.duration) := by
  simp only [parseLine]
  by_cases h1 : (stripChars l.data).isEmpty = true
  · rw [if_pos h1]
    exact Or.inl ⟨rfl, rfl⟩
  · rw [if_neg h1]
    by_cases h2 : hasPrefixC ("#EXT".data) (stripChars l.data) = true
    · rw [if_pos h2]
      cases heq : splitTagC (stripChars l.data) with
      | none => exact Or.inl ⟨rfl, rfl⟩
      | some p =>
        obtain ⟨name, attrs⟩ := p
        have hname : ¬ name.asString = "EXT-X-PROGRAM-DATE-TIME" := by
          intro hcon
          have hln : lineTagName l = some name.asString := by
            unfold lineTagName
            rw [if_neg h1, if_pos h2, heq]
            rfl
          rw [isPdtLine, hln, hcon] at hpdt
          simp at hpdt
        dsimp only
        unfold handleTag
        by_cases e1 : name.asString = "EXT-X-VERSION"
        · rw [if_pos e1]; exact Or.inl ⟨rfl, rfl⟩
        · rw [if_neg e1]
          by_cases e2 : name.asString = "EXT-X-TARGETDURATION"
          · rw [if_pos e2]; exact Or.inl ⟨rfl, rfl⟩
          · rw [if_neg e2]
            by_cases e3 : name.asString = "EXT-X-MEDIA-SEQUENCE"
            · rw [if_pos e3]; exact Or.inl ⟨rfl, rfl⟩
            · rw [if_neg e3]
              by_cases e4 : name.asString = "EXTINF"
              · rw [if_pos e4]; exact Or.inl ⟨rfl, rfl⟩
              · rw [if_neg e4, if_neg hname]
                by_cases e6 : name.asString = "EXT-X-DATERANGE"
                · rw [if_pos e6]; exact Or.inl ⟨rfl, rfl⟩
                · rw [if_neg e6]; exact Or.inl ⟨rfl, rfl⟩
    · rw [if_neg h2]
      by_cases h3 : hasPrefixC ("#".data) (stripChars l.data) = true
      · rw [if_pos h3]; exact Or.inl ⟨rfl, rfl⟩
      · rw [if_neg h3]
        unfold commitUri
        cases hext : s.extinf with
        | none => exact Or.inl ⟨rfl, rfl⟩
        | some p =>
          obtain ⟨d, title⟩ := p
          dsimp only
          exact Or.inr
            ⟨⟨(stripChars l.data).asString, s.nextNum, d, title, s.date⟩,
              rfl, rfl, rfl⟩

theorem run_noPdt (lines : List String) :
    ∀ (s : PState) (t : ℤ), s.date = some t →
      (∀ l ∈ lines, isPdtLine l = false) →
      ∃ Δ, (run s lines).segments = s.segments ++ Δ ∧
        (∀ k (hk : k < Δ.length),
          (Δ.get ⟨k, hk⟩).date
            = some (t + ((Δ.take k).map Segment.duration).sum)) ∧
        (run s lines).date = some (t + (Δ.map Segment.duration).sum) := by
  induction lines with
  | nil =>
    intro s t hdate _
    refine ⟨[], by simp [run], ?_, ?_⟩
    · intro k hk
      simp at hk
    · simpa [run] using hdate
  | cons l ls ih =>
    intro s t hdate hno
    have hl : isPdtLine l = false := hno l (List.mem_cons_self l ls)
    have hls : ∀ x ∈ ls, isPdtLine x = false :=
      fun x hx => hno x (List.mem_cons_of_mem l hx)
    rcases parseLine_classify s l hl with ⟨hseg, hdate2⟩ | ⟨sg, hseg, hsgdate, hdate2⟩
    · obtain ⟨Δ, hΔ1, hΔ2, hΔ3⟩ := ih (parseLine s l) t (by rw [hdate2, hdate]) hls
      refine ⟨Δ, ?_, hΔ2, hΔ3⟩
      show (run (parseLine s l) ls).segments = s.segments ++ Δ
      rw [hΔ1, hseg]
    · have hdate2' : (parseLine s l).date = some (t + sg.duration) := by
        rw [hdate2, hdate]
        rfl
      obtain ⟨Δ, hΔ1, hΔ2, hΔ3⟩ := ih (parseLine s l) (t + sg.duration) hdate2' hls
      refine ⟨sg :: Δ, ?_, ?_, ?_⟩
      · show (run (parseLine s l) ls).segments = s.segments ++ (sg :: Δ)
        rw [hΔ1, hseg]
        simp
      · intro k hk
        cases k with
        | zero =>
          simp only [List.get]
          rw [hsgdate, hdate]
          simp
        | succ k2 =>
          have hk2 : k2 < Δ.length := by
            simpa using hk
          have hx := hΔ2 k2 hk2
          simp only [List.get]
          rw [hx]
          congr 1
          simp [add_assoc]
      · show (run (parseLine s l) ls).date = _
        rw [hΔ3]
        congr 1
        simp [add_assoc]

theorem pdtLine_facts {line : String} (h1 : isPdtLine line = true) :
    ∃ name attrs, ¬ (stripChars line.data).isEmpty = true ∧
      hasPrefixC ("#EXT".data) (stripChars line.data) = true ∧
      splitTagC (stripChars line.data) = some (name, attrs) ∧
      name.asString = "EXT-X-PROGRAM-DATE-TIME" := by
  unfold isPdtLine lineTagName at h1
  by_cases hA : (stripChars line.data).isEmpty = true
  · rw [if_pos hA] at h1
    simp at h1
  · rw [if_neg hA] at h1
    by_cases hB : hasPrefixC ("#EXT".data) (stripChars line.data) = true
    · rw [if_pos hB] at h1
      cases heq : splitTagC (stripChars line.data) with
      | none =>
        rw [heq] at h1
        simp at h1
      | some p =>
        obtain ⟨nm, at2⟩ := p
        rw [heq] at h1
        simp only [Option.map_some', beq_iff_eq, Option.some.injEq] at h1
        exact ⟨nm, at2, hA, hB, rfl, h1⟩
    · rw [if_neg hB] at h1
      simp at h1

theorem parseLine_pdt {s : PState} {line : String}
    (h1 : isPdtLine line = true) :
    (parseLine s line).segments = s.segments ∧
      (parseLine s line).date = pdtValue line := by
  obtain ⟨name, attrs, hA, hB, heq, hnm⟩ := pdtLine_facts h1
  have hstep : parseLine s line
      = { s with date := (parse_iso8601 (some attrs.asString)).1 } := by
    simp only [parseLine]
    rw [if_neg hA, if_pos hB, heq]
    dsimp only
    unfold handleTag
    rw [if_neg (by rw [hnm]; decide), if_neg (by rw [hnm]; decide),
      if_neg (by rw [hnm]; decide), if_neg (by rw [hnm]; decide),
      if_pos hnm]
  have hval : pdtValue line = (parse_iso8601 (some attrs.asString)).1 := by
    unfold pdtValue
    rw [heq]
  rw [hstep, hval]
  exact ⟨rfl, rfl⟩

/-- C5: after an `EXT-X-PROGRAM-DATE-TIME` tag whose value parses to the
anchor `t`, as long as no further PDT tag occurs, every segment emitted
thereafter carries a non-null date equal to `t` plus the sum of the
durations of the segments emitted between the anchor and it (and the
running accumulator ends at `t` plus the sum of all their durations). -/
theorem c5_program_date_time (s : PState) (pdtLine : String)
    (post : List String) (t : ℤ)
    (h1 : isPdtLine pdtLine = true)
    (h2 : pdtValue pdtLine = some t)
    (h3 : ∀ l ∈ post, isPdtLine l = false) :
    ∃ Δ, (run s (pdtLine :: post)).segments = s.segments ++ Δ ∧
      (∀ k (hk : k < Δ.length),
        (Δ.get ⟨k, hk⟩).date
          = some (t + ((Δ.take k).map Segment.duration).sum)) ∧
      (run s (pdtLine :: post)).date
        = some (t + (Δ.map Segment.duration).sum) := by
  obtain ⟨hseg, hdate⟩ := parseLine_pdt (s := s) h1
  obtain ⟨Δ, hΔ1, hΔ2, hΔ3⟩ := run_noPdt post (parseLine s pdtLine) t
    (by rw [hdate, h2]) h3
  refine ⟨Δ, ?_, hΔ2, hΔ3⟩
  show (run (parseLine s pdtLine) post).segments = s.segments ++ Δ
  rw [hΔ1, hseg]

/-- The `EXT-X-PROGRAM-DATE-TIME` line of the test playlist. -/
def pdtLineEx : String := "#EXT-X-PROGRAM-DATE-TIME:2000-01-01T00:00:00.000Z"

/-- The four `EXTINF`+URI line pairs of the test playlist (durations 15.0,
15.5, 29.5, 60.0 seconds). -/
def postLinesEx : List String :=
  [ "#EXTINF:15.0,live", "segment0-15.ts",
    "#EXTINF:15.5,live", "segment15-30.5.ts",
    "#EXTINF:29.5,live", "segment30.5-60.ts",
    "#EXTINF:60.0,live", "segment60-.ts" ]

/-- Witness for C5: on the test playlist of §8 scenario 2 — anchor
2000-01-01T00:00:00Z and durations 15.0, 15.5, 29.5, 60.0 — the four
segments receive dates at +0s, +15s, +30.5s and +60s from the anchor. -/
theorem c5_program_date_time_witness :
    (∃ Δ, (run initState (pdtLineEx :: postLinesEx)).segments
        = initState.segments ++ Δ ∧
      (∀ k (hk : k < Δ.length),
        (Δ.get ⟨k, hk⟩).date
          = some (epoch2000 + ((Δ.take k).map Segment.duration).sum)) ∧
      (run initState (pdtLineEx :: postLinesEx)).date
        = some (epoch2000 + (Δ.map Segment.duration).sum)) ∧
    (parseM3U8 (pdtLineEx :: postLinesEx)).segments.map (fun sg => sg.date)
      = [some epoch2000, some (epoch2000 + 15 * sec1),
         some (epoch2000 + 30500000), some (epoch2000 + 60 * sec1)] :=
  ⟨c5_program_date_time initState pdtLineEx postLinesEx epoch2000
      (by decide) (by decide) (by decide),
   by decide⟩

theorem run_append (a b : List String) :
    ∀ s, run s (a ++ b) = run (run s a) b := by
  induction a with
  | nil => intro s; rfl
  | cons l ls ih =>
    intro s
    show run (parseLine s l) (ls ++ b) = _
    exact ih (parseLine s l)

theorem parseLine_numCases (s : PState) (l : String) :
    (isMsLine l = true ∧
      ∃ v, parseLine s l = { s with media_sequence := v, nextNum := v }) ∨
    ((parseLine s l).media_sequence = s.media_sequence ∧
      (parseLine s l).nextNum = s.nextNum ∧
      (parseLine s l).segments = s.segments) ∨
    ∃ sg, (parseLine s l).segments = s.segments ++ [sg] ∧
      sg.num = s.nextNum ∧
      (parseLine s l).nextNum = s.nextNum + 1 ∧
      (parseLine s l).media_sequence = s.media_sequence := by
  simp only [parseLine]
  by_cases h1 : (stripChars l.data).isEmpty = true
  · rw [if_pos h1]
    exact Or.inr (Or.inl ⟨rfl, rfl, rfl⟩)
  · rw [if_neg h1]
    by_cases h2 : hasPrefixC ("#EXT".data) (stripChars l.data) = true
    · rw [if_pos h2]
      cases heq : splitTagC (stripChars l.data) with
      | none => exact Or.inr (Or.inl ⟨rfl, rfl, rfl⟩)
      | some p =>
        obtain ⟨name, attrs⟩ := p
        have hln : lineTagName l = some name.asString := by
          unfold lineTagName
          rw [if_neg h1, if_pos h2, heq]
          rfl
        dsimp only
        unfold handleTag
        by_cases e1 : name.asString = "EXT-X-VERSION"
        · rw [if_pos e1]; exact Or.inr (Or.inl ⟨rfl, rfl, rfl⟩)
        · rw [if_neg e1]
          by_cases e2 : name.asString = "EXT-X-TARGETDURATION"
          · rw [if_pos e2]; exact Or.inr (Or.inl ⟨rfl, rfl, rfl⟩)
          · rw [if_neg e2]
            by_cases e3 : name.asString = "EXT-X-MEDIA-SEQUENCE"
            · rw [if_pos e3]
              refine Or.inl ⟨?_, parse_int attrs, rfl⟩
              rw [isMsLine, hln, e3]
              rfl
            · rw [if_neg e3]
              by_cases e4 : name.asString = "EXTINF"
              · rw [if_pos e4]; exact Or.inr (Or.inl ⟨rfl, rfl, rfl⟩)
              · rw [if_neg e4]
                by_cases e5 : name.asString = "EXT-X-PROGRAM-DATE-TIME"
                · rw [if_pos e5]; exact Or.inr (Or.inl ⟨rfl, rfl, rfl⟩)
                · rw [if_neg e5]
                  by_cases e6 : name.asString = "EXT-X-DATERANGE"
                  · rw [if_pos e6]; exact Or.inr (Or.inl ⟨rfl, rfl, rfl⟩)
                  · rw [if_neg e6]; exact Or.inr (Or.inl ⟨rfl, rfl, rfl⟩)
    · rw [if_neg h2]
      by_cases h3 : hasPrefixC ("#".data) (stripChars l.data) = true
      · rw [if_pos h3]; exact Or.inr (Or.inl ⟨rfl, rfl, rfl⟩)
      · rw [if_neg h3]
        unfold commitUri
        cases hext : s.extinf with
        | none => exact Or.inr (Or.inl ⟨rfl, rfl, rfl⟩)
        | some p =>
          obtain ⟨d, title⟩ := p
          dsimp only
          exact Or.inr (Or.inr
            ⟨⟨(stripChars l.data).asString, s.nextNum, d, title, s.date⟩,
              rfl, rfl, rfl, rfl⟩)

/-- Segment-numbering invariant: the running counter agrees with
`media_sequence + #segments` and every emitted segment is numbered
`media_sequence + index`. -/
def InvI (s : PState) : Prop :=
  s.nextNum = s.media_sequence + s.segments.length ∧
  ∀ i (hi : i < s.segments.length),
    s.segments[i].num = s.media_sequence + i

/-- Weak invariant: before any segment is emitted, the running counter
agrees with `media_sequence`. -/
def InvQ (s : PState) : Prop :=
  s.segments = [] → s.nextNum = s.media_sequence

theorem InvI_congr {s1 s2 : PState} (hm : s2.media_sequence = s1.media_sequence)
    (hn : s2.nextNum = s1.nextNum) (hs : s2.segments = s1.segments)
    (h : InvI s1) : InvI s2 := by
  refine ⟨by rw [hm, hn, hs]; exact h.1, fun i hi => ?_⟩
  have hi1 : i < s1.segments.length := by rw [hs] at hi; exact hi
  simp only [hs, hm]
  exact h.2 i hi1

theorem InvI_emit {s1 s2 : PState} {sg : Segment}
    (hs : s2.segments = s1.segments ++ [sg]) (hnum : sg.num = s1.nextNum)
    (hn : s2.nextNum = s1.nextNum + 1) (hm : s2.media_sequence = s1.media_sequence)
    (h : InvI s1) : InvI s2 := by
  obtain ⟨h1, h2⟩ := h
  constructor
  · rw [hn, hm, hs, h1]
    simp only [List.length_append, List.length_cons, List.length_nil]
    omega
  · intro i hi
    rw [hm]
    have hi1 : i < s1.segments.length + 1 := by
      rw [hs] at hi
      simpa using hi
    simp only [hs]
    by_cases hlt : i < s1.segments.length
    · rw [List.getElem_append_left hlt]
      exact h2 i hlt
    · have hieq : i = s1.segments.length := by omega
      subst hieq
      rw [List.getElem_append_right (Nat.le_refl _)]
      simp only [Nat.sub_self, List.getElem_cons_zero]
      rw [hnum, h1]

theorem runQ (lines : List String) : ∀ s, InvQ s → InvQ (run s lines) := by
  induction lines with
  | nil => intro s h; exact h
  | cons l ls ih =>
    intro s h
    show InvQ (run (parseLine s l) ls)
    apply ih
    rcases parseLine_numCases s l with ⟨hms, v, hstep⟩ | ⟨hm, hn, hs⟩ | ⟨sg, hs, _, _, _⟩
    · intro hseg
      rw [hstep]
    · intro hseg
      rw [hm, hn]
      exact h (hs ▸ hseg)
    · intro hseg
      rw [hs] at hseg
      exact absurd hseg (by simp)

theorem runI (lines : List String) :
    ∀ s, (∀ l ∈ lines, isMsLine l = false) → InvI s → InvI (run s lines) := by
  induction lines with
  | nil => intro s _ h; exact h
  | cons l ls ih =>
    intro s hno h
    show InvI (run (parseLine s l) ls)
    apply ih _ (fun x hx => hno x (List.mem_cons_of_mem l hx))
    rcases parseLine_numCases s l with ⟨hms, _, _⟩ | ⟨hm, hn, hs⟩ | ⟨sg, hs, hnum, hn, hm⟩
    · rw [hno l (List.mem_cons_self l ls)] at hms
      exact absurd hms (by simp)
    · exact InvI_congr hm hn hs h
    · exact InvI_emit hs hnum hn hm h

/-- C6 (amended): in every parsed media playlist in which no
`EXT-X-MEDIA-SEQUENCE` tag occurs after a segment has been emitted (split
the input as `pre ++ post` with all of `pre` emitting no segment and `post`
free of `EXT-X-MEDIA-SEQUENCE` lines), the segment at 0-based index `i` has
`num = media_sequence + i`, with `media_sequence` defaulting to 0 when the
tag is absent. -/
theorem c6_media_sequence (pre post : List String)
    (h1 : ∀ l ∈ post, isMsLine l = false)
    (h2 : (run initState pre).segments = []) :
    ∀ i (hi : i < (run initState (pre ++ post)).segments.length),
      (run initState (pre ++ post)).segments[i].num
        = (run initState (pre ++ post)).media_sequence + i := by
  have happ : run initState (pre ++ post) = run (run initState pre) post :=
    run_append pre post initState
  have hQ : InvQ (run initState pre) :=
    runQ pre initState (fun _ => rfl)
  have hI : InvI (run initState pre) := by
    constructor
    · rw [h2, hQ h2]
      rfl
    · intro i hi
      rw [h2] at hi
      exact absurd hi (by simp)
  have hfinal : InvI (run (run initState pre) post) := runI post _ h1 hI
  intro i hi
  have hi2 : i < (run (run initState pre) post).segments.length := by
    rw [← happ]
    exact hi
  simp only [happ]
  exact hfinal.2 i hi2

/-- A playlist with a late `EXT-X-MEDIA-SEQUENCE` tag (after the first
segment). -/
def lateMsLines : List String :=
  [ "#EXTM3U", "#EXTINF:5,", "a.ts",
    "#EXT-X-MEDIA-SEQUENCE:10", "#EXTINF:5,", "b.ts" ]

/-- C6 counterexample: with an `EXT-X-MEDIA-SEQUENCE:10` tag appearing after
the first segment, the tag is late-binding (§4.4, §9): the final
`media_sequence` is 10 but the first segment keeps `num = 0 ≠ 10 + 0`, so
the claim fails for this parsed media playlist. -/
theorem c6_counterexample :
    (parseM3U8 lateMsLines).media_sequence = 10 ∧
    (parseM3U8 lateMsLines).segments.map Segment.num = [0, 10] ∧
    ¬ (∀ i (hi : i < (parseM3U8 lateMsLines).segments.length),
        (parseM3U8 lateMsLines).segments[i].num
          = (parseM3U8 lateMsLines).media_sequence + i) :=
  ⟨by decide, by decide, fun h => absurd (h 0 (by decide)) (by decide)⟩

/-- Witness for C6 (amended): on the test playlist (no
`EXT-X-MEDIA-SEQUENCE` tag at all, so `media_sequence = 0`), segment 1 is
numbered `0 + 1`. -/
theorem c6_media_sequence_witness :
    ((run initState ([] ++ (pdtLineEx :: postLinesEx))).segments.get
        ⟨1, by decide⟩).num
      = (run initState ([] ++ (pdtLineEx :: postLinesEx))).media_sequence + 1 := by
  have h := c6_media_sequence [] (pdtLineEx :: postLinesEx) (by decide)
    (by decide) 1 (by decide)
  simpa [List.get_eq_getElem] using h

/-- The attribute portion a tag line passes to its handler, if any. -/
def lineAttrs (line : String) : Option (List Char) :=
  (splitTagC (stripChars line.data)).map (fun p => p.2)

theorem lineTagName_facts {line : String} {tag : String}
    (h : lineTagName line = some tag) :
    ∃ name attrs, ¬ (stripChars line.data).isEmpty = true ∧
      hasPrefixC ("#EXT".data) (stripChars line.data) = true ∧
      splitTagC (stripChars line.data) = some (name, attrs) ∧
      name.asString = tag := by
  unfold lineTagName at h
  by_cases hA : (stripChars line.data).isEmpty = true
  · rw [if_pos hA] at h
    simp at h
  · rw [if_neg hA] at h
    by_cases hB : hasPrefixC ("#EXT".data) (stripChars line.data) = true
    · rw [if_pos hB] at h
      cases heq : splitTagC (stripChars line.data) with
      | none =>
        rw [heq] at h
        simp at h
      | some p =>
        obtain ⟨nm, at2⟩ := p
        rw [heq] at h
        simp only [Option.map_some', Option.some.injEq] at h
        exact ⟨nm, at2, hA, hB, rfl, h⟩
    · rw [if_neg hB] at h
      simp at h

/-- C9: an `EXT-X-DATERANGE` tag line whose `START-DATE` attribute value
fails ISO8601 parsing is still appended to the playlist's date ranges, with
`start_date` null; `is_date_in_daterange` returns null on the resulting
range for every date, and the malformed value does not disturb the rest of
the state (no segment is dropped or added). -/
theorem c9_invalid_start_date (s : PState) (line : String)
    (attrs : List Char) (v : String)
    (h1 : lineTagName line = some "EXT-X-DATERANGE")
    (h2 : lineAttrs line = some attrs)
    (h3 : alookup (parse_attributes attrs.asString).1 "START-DATE" = some v)
    (h4 : (parse_iso8601 (some v)).1 = none) :
    ∃ dr, (parseLine s line).dateranges = s.dateranges ++ [dr] ∧
      dr.start_date = none ∧
      (∀ d, is_date_in_daterange d dr = none) ∧
      (parseLine s line).segments = s.segments := by
  obtain ⟨name, attrs2, hA, hB, heq, hnm⟩ := lineTagName_facts h1
  have hattrs : attrs2 = attrs := by
    unfold lineAttrs at h2
    rw [heq] at h2
    simpa using h2
  rw [hattrs] at heq
  have hstep : parseLine s line
      = { s with dateranges :=
          s.dateranges ++ [mkDateRange (parse_attributes attrs.asString).1] } := by
    simp only [parseLine]
    rw [if_neg hA, if_pos hB, heq]
    dsimp only
    unfold handleTag
    rw [if_neg (by rw [hnm]; decide), if_neg (by rw [hnm]; decide),
      if_neg (by rw [hnm]; decide), if_neg (by rw [hnm]; decide),
      if_neg (by rw [hnm]; decide), if_pos hnm]
  have hsd : (mkDateRange (parse_attributes attrs.asString).1).start_date
      = none := by
    simp only [mkDateRange]
    rw [h3, h4]
  refine ⟨mkDateRange (parse_attributes attrs.asString).1, ?_, hsd, ?_, ?_⟩
  · rw [hstep]
  · intro d
    cases d with
    | none => rfl
    | some x => simp only [is_date_in_daterange, hsd]
  · rw [hstep]

/-- The test playlist's `start-invalid` date-range line: its `START-DATE`
value is out of range. -/
def invalidDrLine : String :=
  "#EXT-X-DATERANGE:ID=\"start-invalid\",START-DATE=\"2000-99-99T99:99:99.999Z\""

/-- Witness for C9 at the test's `start-invalid` date range. -/
theorem c9_invalid_start_date_witness :
    ∃ dr, (parseLine initState invalidDrLine).dateranges
        = initState.dateranges ++ [dr] ∧
      dr.start_date = none ∧
      (∀ d, is_date_in_daterange d dr = none) ∧
      (parseLine initState invalidDrLine).segments = initState.segments :=
  c9_invalid_start_date initState invalidDrLine
    ("ID=\"start-invalid\",START-DATE=\"2000-99-99T99:99:99.999Z\"".data)
    "2000-99-99T99:99:99.999Z" (by decide) (by decide) (by decide) (by decide)

/-! ### Tag-handler registry

Modelled from the spec: §4.3 — at first instantiation of a parser type the
framework collects the type's marked handlers (including inherited ones)
into a `{tag → handler}` map cached on the type; subtypes inherit the parent
map and may override or extend entries without mutating the parent's map;
two distinct instances of the same type share the cached registry object.
The hierarchy is the one of `test_parse_tag_mapping`: a base parser with
handlers for `EXTINF` and `EXT-X-VERSION`, and a subtype overriding
`EXT-X-VERSION` and adding `FOO-BAR`.  Object identity is modelled by
tagging each materialised registry with a fresh allocation id held in a
per-process cache. -/

/-- The two parser types of the registry scenario. -/
inductive PClass where
  | base
  | sub
deriving DecidableEq

/-- The handler functions, identified by their defining type and tag. -/
inductive Handler where
  | baseExtinf
  | baseVersion
  | subVersion
  | subFooBar
deriving DecidableEq

/-- The handlers each type declares itself. -/
def ownHandlers : PClass → List (String × Handler)
  | PClass.base =>
    [("EXTINF", Handler.baseExtinf), ("EXT-X-VERSION", Handler.baseVersion)]
  | PClass.sub =>
    [("EXT-X-VERSION", Handler.subVersion), ("FOO-BAR", Handler.subFooBar)]

/-- Inherit the parent map, overriding entries the subtype redefines and
appending its new entries; the parent's map is left untouched (it is a
value). -/
def overrideAll (parent own : List (String × Handler)) :
    List (String × Handler) :=
  parent.map (fun kv =>
    match own.lookup kv.1 with
    | some h => (kv.1, h)
    | none => kv)
  ++ own.filter (fun kv => (parent.lookup kv.1).isNone)

/-- The materialised registry of each type: the base type's own handlers;
the subtype's inherited-and-overridden map. -/
def registryMap : PClass → List (String × Handler)
  | PClass.base => ownHandlers PClass.base
  | PClass.sub => overrideAll (ownHandlers PClass.base) (ownHandlers PClass.sub)

/-- The per-process registry cache: class → allocated registry id. -/
structure TagCache where
  entries : List (PClass × Nat)
  nextId : Nat
deriving DecidableEq

/-- The empty cache. -/
def emptyTagCache : TagCache := { entries := [], nextId := 0 }

/-- Instantiating a parser returns the type's registry object (id and map),
materialising and caching it on first use. -/
def instantiate (c : PClass) (st : TagCache) :
    (Nat × List (String × Handler)) × TagCache :=
  match st.entries.lookup c with
  | some rid => ((rid, registryMap c), st)
  | none =>
    ((st.nextId, registryMap c),
      { entries := (c, st.nextId) :: st.entries, nextId := st.nextId + 1 })

/-- First instantiation of the base type. -/
def instBase : (Nat × List (String × Handler)) × TagCache :=
  instantiate PClass.base emptyTagCache

/-- First instantiation of the subtype. -/
def instSubA : (Nat × List (String × Handler)) × TagCache :=
  instantiate PClass.sub instBase.2

/-- Second instantiation of the subtype. -/
def instSubB : (Nat × List (String × Handler)) × TagCache :=
  instantiate PClass.sub instSubA.2

/-- C4: two distinct instances of the subtype share the identical registry
object (same allocation, not merely equal contents), which differs from the
parent's object; the subtype's registry keeps the inherited parent handler
for `EXTINF`, uses its own handler for the overridden `EXT-X-VERSION` and
contains the new `FOO-BAR`; the parent's registry is unaffected — it keeps
its own `EXT-X-VERSION` handler and lacks `FOO-BAR`; and in general every
tag the subtype does not declare itself resolves to the parent's entry. -/
theorem c4_tag_registry :
    (instSubA.1 = instSubB.1 ∧ instBase.1.1 ≠ instSubA.1.1) ∧
    ((registryMap PClass.sub).lookup "EXTINF" = some Handler.baseExtinf ∧
      (registryMap PClass.sub).lookup "EXT-X-VERSION" = some Handler.subVersion ∧
      (registryMap PClass.sub).lookup "FOO-BAR" = some Handler.subFooBar) ∧
    ((registryMap PClass.base).lookup "EXT-X-VERSION" = some Handler.baseVersion ∧
      (registryMap PClass.base).lookup "FOO-BAR" = none) ∧
    (∀ t : String, (ownHandlers PClass.sub).lookup t = none →
      (registryMap PClass.sub).lookup t = (registryMap PClass.base).lookup t) := by
  refine ⟨⟨by decide, by decide⟩, ⟨by decide, by decide, by decide⟩,
    ⟨by decide, by decide⟩, ?_⟩
  intro t ht
  by_cases h1 : t = "EXT-X-VERSION"
  · subst h1
    exact absurd ht (by decide)
  · by_cases h2 : t = "FOO-BAR"
    · subst h2
      exact absurd ht (by decide)
    · by_cases h3 : t = "EXTINF"
      · subst h3
        decide
      · have e1 : (t == "EXTINF") = false := by simp [h3]
        have e2 : (t == "EXT-X-VERSION") = false := by simp [h1]
        have e3 : (t == "FOO-BAR") = false := by simp [h2]
        simp [registryMap, overrideAll, ownHandlers, List.lookup, e1, e2, e3]

/-- Witness for C4's inheritance clause at the tag `EXTINF`, which the
subtype does not declare itself. -/
theorem c4_tag_registry_witness :
    (ownHandlers PClass.sub).lookup "EXTINF" = none ∧
    (registryMap PClass.sub).lookup "EXTINF"
      = (registryMap PClass.base).lookup "EXTINF" :=
  ⟨by decide, c4_tag_registry.2.2.2 "EXTINF" (by decide)⟩

/-! ### User-agent strings (`streamlink/session/http_useragents.py`) -/

/-- `ANDROID` of `http_useragents.py`. -/
def ANDROID : String :=
  "Mozilla/5.0 (Linux; Android 15) AppleWebKit/537.36 (KHTML, like Gecko) Chrome/132.0.6834.164 Mobile Safari/537.36"

/-- `CHROME` of `http_useragents.py`. -/
def CHROME : String :=
  "Mozilla/5.0 (Windows NT 10.0; Win64; x64) AppleWebKit/537.36 (KHTML, like Gecko) Chrome/132.0.0.0 Safari/537.36"

/-- `CHROME_OS` of `http_useragents.py`. -/
def CHROME_OS : String :=
  "Mozilla/5.0 (X11; CrOS x86_64 15917.71.0) AppleWebKit/537.36 (KHTML, like Gecko) Chrome/127.0.6533.132 Safari/537.36"

/-- `FIREFOX` of `http_useragents.py`. -/
def FIREFOX : String :=
  "Mozilla/5.0 (Windows NT 10.0; Win64; x64; rv:134.0) Gecko/20100101 Firefox/134.0"

/-- `IE_11` of `http_useragents.py`. -/
def IE_11 : String :=
  "Mozilla/5.0 (Windows NT 10.0; WOW64; Trident/7.0; rv:11.0) like Gecko"

/-- `IPHONE` of `http_useragents.py`. -/
def IPHONE : String :=
  "Mozilla/5.0 (iPhone; CPU iPhone OS 17_7_2 like Mac OS X) AppleWebKit/605.1.15 (KHTML, like Gecko) Version/17.4.1 Mobile/15E148 Safari/604.1"

/-- `OPERA` of `http_useragents.py`. -/
def OPERA : String :=
  "Mozilla/5.0 (Windows NT 10.0; Win64; x64) AppleWebKit/537.36 (KHTML, like Gecko) Chrome/132.0.0.0 Safari/537.36 OPR/116.0.0.0"

/-- `SAFARI` of `http_useragents.py`. -/
def SAFARI : String :=
  "Mozilla/5.0 (Macintosh; Intel Mac OS X 14_7_3) AppleWebKit/605.1.15 (KHTML, like Gecko) Version/17.4.1 Safari/605.1.15"

/-- Backwards-compatibility alias `EDGE = CHROME`. -/
def EDGE : String := CHROME

/-- Backwards-compatibility alias `FIREFOX_MAC = FIREFOX`. -/
def FIREFOX_MAC : String := FIREFOX

/-- Backwards-compatibility alias `IE_6 = IE_11` (chained assignment). -/
def IE_6 : String := IE_11

/-- Backwards-compatibility alias `IE_7 = IE_11` (chained assignment). -/
def IE_7 : String := IE_11

/-- Backwards-compatibility alias `IE_8 = IE_11` (chained assignment). -/
def IE_8 : String := IE_11

/-- Backwards-compatibility alias `IE_9 = IE_11` (chained assignment). -/
def IE_9 : String := IE_11

/-- Backwards-compatibility alias `IPHONE_6 = IPHONE` (chained assignment). -/
def IPHONE_6 : String := IPHONE

/-- Backwards-compatibility alias `IPAD = IPHONE` (chained assignment). -/
def IPAD : String := IPHONE

/-- Backwards-compatibility alias `SAFARI_7 = SAFARI` (chained assignment). -/
def SAFARI_7 : String := SAFARI

/-- Backwards-compatibility alias `SAFARI_8 = SAFARI` (chained assignment). -/
def SAFARI_8 : String := SAFARI

/-- Backwards-compatibility alias `WINDOWS_PHONE_8 = ANDROID`. -/
def WINDOWS_PHONE_8 : String := ANDROID

/-- C10: every backwards-compatibility user-agent alias equals its current
counterpart string: `EDGE = CHROME`; `FIREFOX_MAC = FIREFOX`; `IE_6`,
`IE_7`, `IE_8`, `IE_9` all equal `IE_11`; `IPHONE_6` and `IPAD` equal
`IPHONE`; `SAFARI_7` and `SAFARI_8` equal `SAFARI`; `WINDOWS_PHONE_8`
equals `ANDROID` — and the counterparts carry the current strings. -/
theorem c10_useragent_aliases :
    EDGE = CHROME ∧ FIREFOX_MAC = FIREFOX ∧
    IE_6 = IE_11 ∧ IE_7 = IE_11 ∧ IE_8 = IE_11 ∧ IE_9 = IE_11 ∧
    IPHONE_6 = IPHONE ∧ IPAD = IPHONE ∧
    SAFARI_7 = SAFARI ∧ SAFARI_8 = SAFARI ∧
    WINDOWS_PHONE_8 = ANDROID ∧
    EDGE = "Mozilla/5.0 (Windows NT 10.0; Win64; x64) AppleWebKit/537.36 (KHTML, like Gecko) Chrome/132.0.0.0 Safari/537.36" ∧
    WINDOWS_PHONE_8 = "Mozilla/5.0 (Linux; Android 15) AppleWebKit/537.36 (KHTML, like Gecko) Chrome/132.0.6834.164 Mobile Safari/537.36" := by
  decide

/-! ### End-to-end validation against `TestHLSPlaylist.test_parse_date` -/

/-- The date-range/program-date-time test playlist (the rows of
`test_parse_date`, with the two ranges that duplicate `start-no-frac`
behaviour kept as well). -/
def dateLines : List String :=
  [ "#EXTM3U",
    "#EXT-X-TARGETDURATION:120",
    "#EXT-X-DATERANGE:ID=\"start-invalid\",START-DATE=\"invalid\"",
    "#EXT-X-DATERANGE:ID=\"start-no-frac\",START-DATE=\"2000-01-01T00:00:00Z\"",
    "#EXT-X-DATERANGE:ID=\"start-with-frac\",START-DATE=\"2000-01-01T00:00:00.000Z\"",
    "#EXT-X-DATERANGE:ID=\"with-class\",CLASS=\"bar\",START-DATE=\"2000-01-01T00:00:00.000Z\"",
    "#EXT-X-DATERANGE:ID=\"duration\",START-DATE=\"2000-01-01T00:00:00.000Z\",DURATION=30.5",
    "#EXT-X-DATERANGE:ID=\"planned-duration\",START-DATE=\"2000-01-01T00:00:00.000Z\",PLANNED-DURATION=15",
    "#EXT-X-DATERANGE:ID=\"duration-precedence\",START-DATE=\"2000-01-01T00:00:00.000Z\",DURATION=30.5,PLANNED-DURATION=15",
    "#EXT-X-DATERANGE:ID=\"end\",START-DATE=\"2000-01-01T00:00:00.000Z\",END-DATE=\"2000-01-01T00:01:00.000Z\"",
    "#EXT-X-DATERANGE:ID=\"end-precedence\",START-DATE=\"2000-01-01T00:00:00.000Z\",END-DATE=\"2000-01-01T00:01:00.000Z\",DURATION=30.5",
    "#EXT-X-DATERANGE:X-CUSTOM=\"value\"",
    "#EXT-X-PROGRAM-DATE-TIME:2000-01-01T00:00:00.000Z",
    "#EXTINF:15.0,live",
    "segment0-15.ts",
    "#EXTINF:15.5,live",
    "segment15-30.5.ts",
    "#EXTINF:29.5,live",
    "segment30.5-60.ts",
    "#EXTINF:60.0,live",
    "segment60-.ts" ]

set_option synthInstance.maxSize 20000 in
/-- Model validation: on the `test_parse_date` playlist the model reproduces
the test's expectations — the target duration, the segment numbers, titles,
durations and dates, the `start-invalid` and `x`-only ranges with null
start, and the full 4×10 matrix of `is_date_in_daterange` results asserted
at lines 588-595 of the test. -/
theorem date_playlist_validation :
    ( (parseM3U8 dateLines).targetduration,
      (parseM3U8 dateLines).media_sequence,
      (parseM3U8 dateLines).segments.map Segment.num,
      (parseM3U8 dateLines).segments.map Segment.duration,
      (parseM3U8 dateLines).segments.map Segment.date,
      (parseM3U8 dateLines).dateranges.map DateRange.start_date,
      (parseM3U8 dateLines).dateranges.map DateRange.x,
      (parseM3U8 dateLines).segments.map (fun sg =>
        (parseM3U8 dateLines).dateranges.map (fun dr =>
          is_date_in_daterange sg.date dr)) )
    = ( some 120,
        0,
        [0, 1, 2, 3],
        [15 * sec1, 15500000, 29500000, 60 * sec1],
        [some epoch2000, some (epoch2000 + 15 * sec1),
         some (epoch2000 + 30500000), some (epoch2000 + 60 * sec1)],
        [none, some epoch2000, some epoch2000, some epoch2000, some epoch2000,
         some epoch2000, some epoch2000, some epoch2000, some epoch2000, none],
        [[], [], [], [], [], [], [], [], [], [("X-CUSTOM", "value")]],
        [[none, some true, some true, some true, some true, some true,
          some true, some true, some true, none],
         [none, some true, some true, some true, some true, some false,
          some true, some true, some true, none],
         [none, some true, some true, some true, some false, some false,
          some false, some true, some true, none],
         [none, some true, some true, some true, some false, some false,
          some false, some false, some false, none]] ) := by
  decide
